import Mathlib

/-!
Formal model of the metadata resolution engine of `wav_to_flac_converter.py`
(class `AdvancedMetadataLookup`).

Conventions of the shallow embedding:
  * Python dicts of string fields (metadata records) are association lists
    `List (String × String)` in insertion order; `dict.get` is association
    lookup, assignment to an existing key replaces in place, assignment to a
    fresh key appends.
  * Python string truthiness is `s ≠ ""`; dict truthiness is non-emptiness;
    int truthiness is `n ≠ 0`; `Optional` values are `Option`.
  * The regular-expression tests of the source are compiled by hand into
    character-list scanners.  All character classes involved (digits,
    whitespace, separators, the literal words) are pairwise disjoint where
    backtracking could matter, so maximal-munch scanning coincides with the
    Python `re` semantics at every use site.  Only ASCII behaviour of
    `str.lower` / `str.strip` / the `re` classes is modelled; every input the
    program derives filenames from is treated as ASCII text.
  * Floats are modelled as rationals; the thresholds 0.6 / 0.7 / 0.8 of the
    source become 3/5, 7/10 and 4/5.  The textual rendering of a stored
    float (`str(score)`) is abstracted by the rational rendering `ratToStr`;
    no decision of the program depends on that text.
  * External services (MusicBrainz, AcoustID, Last.fm, `fpcalc`) are oracles
    in an `Env` record; a call that may raise returns `Except`.  Mutable
    state of `AdvancedMetadataLookup` (the four caches, the enabled flags,
    the rate limiter) lives in a `ConvState` record, threaded explicitly.
    `ConvState` additionally carries counters that count the external calls
    and per-client external lookups; they model the observable I/O of the
    program, not a Python variable.
-/

/-! ### Python string primitives -/

/-- ASCII decimal digit, the class `\d` of the source patterns. -/
def isPyDigit (c : Char) : Bool := '0' ≤ c && c ≤ '9'

/-- ASCII whitespace as matched by `\s` and stripped by `str.strip()`. -/
def isPySpace (c : Char) : Bool :=
  c == ' ' || c == '\t' || c == '\n' || c == '\r' || c == '\x0b' || c == '\x0c'

/-- The separator class of the patterns written with space, dash, underscore and dot. -/
def isSepSD (c : Char) : Bool := isPySpace c || c == '-' || c == '_' || c == '.'

/-- The separator class of the patterns written with space, dash and underscore only. -/
def isSepS (c : Char) : Bool := isPySpace c || c == '-' || c == '_'

/-- Word character of the boundary `\b`: letters, digits, underscore (ASCII). -/
def isWordChar (c : Char) : Bool := c.isAlpha || isPyDigit c || c == '_'

/-- `str.lower()` on a character list (ASCII). -/
def lowerL (l : List Char) : List Char := l.map Char.toLower

/-- `str.strip()` on a character list. -/
def stripL (l : List Char) : List Char :=
  ((l.dropWhile isPySpace).reverse.dropWhile isPySpace).reverse

/-- `str.lower()` on strings. -/
def lowerS (s : String) : String := String.mk (lowerL s.toList)

/-- `str.strip()` on strings. -/
def stripS (s : String) : String := String.mk (stripL s.toList)

/-- Match a literal at the head of the input, returning the rest. -/
def litMatch : List Char → List Char → Option (List Char)
  | [], s => some s
  | _ :: _, [] => none
  | c :: cs, d :: ds => if c = d then litMatch cs ds else none

/-- Case-insensitive literal match (the literal is given lowercase). -/
def litMatchCI : List Char → List Char → Option (List Char)
  | [], s => some s
  | _ :: _, [] => none
  | c :: cs, d :: ds => if c = d.toLower then litMatchCI cs ds else none

/-- Whether the head of the input is a decimal digit. -/
def headDigit : List Char → Bool
  | c :: _ => isPyDigit c
  | [] => false

/-- Substring containment, the unanchored `re.search` of a plain literal. -/
def containsSub (pat : List Char) : List Char → Bool
  | [] => pat.isEmpty
  | c :: rest => pat.isPrefixOf (c :: rest) || containsSub pat rest

/-- Numeric value of a digit run, as read by Python `int` on a digit string. -/
def digitsVal (ds : List Char) : Nat :=
  ds.foldl (fun a c => a * 10 + (c.toNat - 48)) 0

/-- `str(n).zfill(width)` for the non-negative decimal strings the program produces. -/
def pyZfill (s : String) (width : Nat) : String :=
  if width ≤ s.length then s
  else String.mk (List.replicate (width - s.length) '0') ++ s

/-- Digit loop of Python `int(str)`: digits with single underscores allowed between digits. -/
def pyIntLoop : List Char → Nat → Bool → Option Nat
  | [], acc, prevDigit => if prevDigit then some acc else none
  | c :: cs, acc, prevDigit =>
    if isPyDigit c then pyIntLoop cs (acc * 10 + (c.toNat - 48)) true
    else if c = '_' then
      match prevDigit, cs with
      | true, d :: _ => if isPyDigit d then pyIntLoop cs acc false else none
      | _, _ => none
    else none

/-- Python `int(s)`: surrounding whitespace, optional sign, decimal digits;
`none` models the `ValueError`. -/
def parsePyInt (s : String) : Option Int :=
  match stripL s.toList with
  | '+' :: rest => (pyIntLoop rest 0 false).map (fun v => (v : Int))
  | '-' :: rest => (pyIntLoop rest 0 false).map (fun v => -(v : Int))
  | cs => (pyIntLoop cs 0 false).map (fun v => (v : Int))

/-! ### Association-list model of Python string dicts -/

/-- Metadata record: a Python dict from tag names to string values, in insertion order. -/
abbrev Metadata := List (String × String)

/-- `dict.get k`. -/
def aget {α : Type} : List (String × α) → String → Option α
  | [], _ => none
  | (k, v) :: m, key => if k = key then some v else aget m key

/-- `dict[k] = v`: replace in place if the key exists, append otherwise. -/
def aset {α : Type} : List (String × α) → String → α → List (String × α)
  | [], key, v => [(key, v)]
  | (k, w) :: m, key, v =>
    if k = key then (k, v) :: m else (k, w) :: aset m key v

/-- `dict.get k` on metadata records. -/
def mget (m : Metadata) (k : String) : Option String := aget m k

/-- `dict.get k default` on metadata records. -/
def mgetD (m : Metadata) (k d : String) : String := (mget m k).getD d

/-- `dict[k] = v` on metadata records. -/
def mset (m : Metadata) (k v : String) : Metadata := aset m k v

/-! ### The filename classifier `_is_generic_filename`

Each `genericPatN` compiles the N-th entry of the `generic_patterns` list of
the source; the input is already lowercased and stripped. -/

/-- Pattern matching a leading track word, optional spaces, then a digit. -/
def genericPat1 (s : List Char) : Bool :=
  match litMatch "track".toList s with
  | some r => headDigit (r.dropWhile isPySpace)
  | none => false

/-- Pattern matching a leading digit run, separators, then the word track. -/
def genericPat2 (s : List Char) : Bool :=
  !(s.takeWhile isPyDigit).isEmpty &&
    "track".toList.isPrefixOf ((s.dropWhile isPyDigit).dropWhile isSepSD)

/-- Pattern matching a digit run followed only by separators up to the end. -/
def genericPat3 (s : List Char) : Bool :=
  !(s.takeWhile isPyDigit).isEmpty && (s.dropWhile isPyDigit).all isSepSD

/-- Pattern matching digit run, separators, digit run, end of string. -/
def genericPat4 (s : List Char) : Bool :=
  let r1 := s.dropWhile isPyDigit
  let r2 := r1.dropWhile isSepSD
  !(s.takeWhile isPyDigit).isEmpty && !(r1.takeWhile isSepSD).isEmpty &&
    !(r2.takeWhile isPyDigit).isEmpty && (r2.dropWhile isPyDigit).isEmpty

/-- Pattern matching the word track, separators with dot, then a digit. -/
def genericPat5 (s : List Char) : Bool :=
  match litMatch "track".toList s with
  | some r => headDigit (r.dropWhile isSepSD)
  | none => false

/-- Generic words recognised by the multi-language patterns. -/
def genericWords : List String := ["track", "titulo", "cancion", "song"]

/-- Pattern matching a digit run, separators, then one of the generic words. -/
def genericPat6 (s : List Char) : Bool :=
  !(s.takeWhile isPyDigit).isEmpty &&
    genericWords.any
      (fun w => w.toList.isPrefixOf ((s.dropWhile isPyDigit).dropWhile isSepSD))

/-- Pattern matching one of the generic words, separators, then a digit. -/
def genericPat7 (s : List Char) : Bool :=
  genericWords.any
    (fun w => w.toList.isPrefixOf s &&
      headDigit ((s.drop w.length).dropWhile isSepSD))

/-- Unanchored pattern whose tail may be empty: reduces to containing untitled. -/
def genericPat8 (s : List Char) : Bool := containsSub "untitled".toList s

/-- Pattern matching the word audio, separators, then a digit. -/
def genericPat9 (s : List Char) : Bool :=
  match litMatch "audio".toList s with
  | some r => headDigit (r.dropWhile isSepS)
  | none => false

/-- Pattern matching the Spanish word pista, separators, then a digit. -/
def genericPat10 (s : List Char) : Bool :=
  match litMatch "pista".toList s with
  | some r => headDigit (r.dropWhile isSepS)
  | none => false

/-- `_is_generic_filename`: lowercases and strips the name, then tries the
ten generic patterns in order. -/
def is_generic_filename (filename : String) : Bool :=
  let s := stripL (lowerL filename.toList)
  genericPat1 s || genericPat2 s || genericPat3 s || genericPat4 s ||
  genericPat5 s || genericPat6 s || genericPat7 s || genericPat8 s ||
  genericPat9 s || genericPat10 s

/-! ### The track number extractor `_extract_track_number` -/

/-- First extraction pattern: a leading digit run. -/
def extractPat1 (s : List Char) : Option Nat :=
  let ds := s.takeWhile isPyDigit
  if ds.isEmpty then none else some (digitsVal ds)

/-- Second extraction pattern: the word track, separators, then a digit run,
searched left to right. -/
def extractPat2 : List Char → Option Nat
  | [] => none
  | c :: rest =>
    match litMatch "track".toList (c :: rest) with
    | some r =>
      let ds := (r.dropWhile isSepS).takeWhile isPyDigit
      if ds.isEmpty then extractPat2 rest else some (digitsVal ds)
    | none => extractPat2 rest

/-- Third extraction pattern: a digit run, separators, then the word track,
searched left to right. -/
def extractPat3 : List Char → Option Nat
  | [] => none
  | c :: rest =>
    let ds := (c :: rest).takeWhile isPyDigit
    if !ds.isEmpty &&
        "track".toList.isPrefixOf
          (((c :: rest).dropWhile isPyDigit).dropWhile isSepS) then
      some (digitsVal ds)
    else extractPat3 rest

/-- `_extract_track_number`: tries the three patterns in order on the
lowercased (not stripped) filename. -/
def _extract_track_number (filename : String) : Option Nat :=
  let s := lowerL filename.toList
  match extractPat1 s with
  | some n => some n
  | none =>
    match extractPat2 s with
    | some n => some n
    | none => extractPat3 s

/-! ### The generic-title cleanup substitution of `parse_directory_structure`

The source removes, case-insensitively, every occurrence of a leading digit
run with trailing separators, or of the word track with trailing separators
and digits, scanning left to right as `re.sub` does. -/

/-- Matcher, at the current position, of the track alternative of the cleanup
pattern: the word track (case-insensitive), separators, digits, separators.
Returns the rest of the input after the match. -/
def matchTrackB (s : List Char) : Option (List Char) :=
  match s with
  | c1 :: c2 :: c3 :: c4 :: c5 :: rest =>
    if c1.toLower = 't' ∧ c2.toLower = 'r' ∧ c3.toLower = 'a' ∧
        c4.toLower = 'c' ∧ c5.toLower = 'k' then
      some (((rest.dropWhile isSepS).dropWhile isPyDigit).dropWhile isSepS)
    else none
  | _ => none

/-- Left-to-right scan of the input removing every track-alternative match,
the part of the cleanup substitution that applies beyond position zero.
The fuel only bounds the recursion depth: every step strictly shortens the
input, so the fuel supplied by `subB` is never exhausted. -/
def subBF : Nat → List Char → List Char
  | 0, s => s
  | _ + 1, [] => []
  | fuel + 1, c :: rest =>
    match matchTrackB (c :: rest) with
    | some r => subBF fuel r
    | none => c :: subBF fuel rest

/-- The track-alternative removal scan. -/
def subB (s : List Char) : List Char := subBF (s.length + 1) s

/-- The full cleanup: at position zero the leading-digits alternative is
preferred; if it fires, digits and separators are consumed before the scan
continues; the cleaned text is stripped, an emptied title falls back to the
original filename. -/
def pyCleanTitle (filename : String) : String :=
  let cleaned :=
    if headDigit filename.toList then
      subB ((filename.toList.dropWhile isPyDigit).dropWhile isSepSD)
    else subB filename.toList
  let ct := stripL cleaned
  if ct.isEmpty then filename else String.mk ct

/-! ### Year extraction from the album directory name -/

/-- Boundary test of `\b` on the left of a word character. -/
def boundaryOk (prev : Option Char) : Bool :=
  match prev with
  | none => true
  | some p => !isWordChar p

/-- The bare-year pattern at the current position: word boundary, the pair 19
or 20, two digits, word boundary.  Returns the pattern group (the first two
characters), the last matched character and the rest of the input. -/
def year1At (prev : Option Char) (s : List Char) : Option ((List Char × Char) × List Char) :=
  match s with
  | a :: b :: c :: d :: rest =>
    if boundaryOk prev && ((a == '1' && b == '9') || (a == '2' && b == '0')) &&
        isPyDigit c && isPyDigit d &&
        (match rest with | [] => true | e :: _ => !isWordChar e) then
      some (([a, b], d), rest)
    else none
  | _ => none

/-- Leftmost search of the bare-year pattern, as `re.search`; returns the
first pattern group. -/
def searchYear1 (prev : Option Char) (s : List Char) : Option String :=
  match s with
  | [] => none
  | c :: rest =>
    match year1At prev (c :: rest) with
    | some ((g1, _), _) => some (String.mk g1)
    | none => searchYear1 (some c) rest

/-- Removal of every bare-year match, as `re.sub` with the empty replacement;
boundary checks look at the original neighbouring characters.  The fuel only
bounds the recursion depth and is never exhausted when seeded with the input
length. -/
def subYear1F : Nat → Option Char → List Char → List Char
  | 0, _, s => s
  | _ + 1, _, [] => []
  | fuel + 1, prev, c :: rest =>
    match year1At prev (c :: rest) with
    | some ((_, last), after) => subYear1F fuel (some last) after
    | none => c :: subYear1F fuel (some c) rest

/-- The bare-year removal scan. -/
def subYear1 (prev : Option Char) (s : List Char) : List Char :=
  subYear1F (s.length + 1) prev s

/-- The delimited-year pattern at the current position: an opening delimiter,
four digits, a closing delimiter.  Returns the digit group and the rest. -/
def yearDelimAt (lo hi : Char) (s : List Char) : Option (List Char × List Char) :=
  match s with
  | o :: a :: b :: c :: d :: e :: rest =>
    if o == lo && isPyDigit a && isPyDigit b && isPyDigit c && isPyDigit d && e == hi then
      some ([a, b, c, d], rest)
    else none
  | _ => none

/-- Leftmost search of a delimited-year pattern. -/
def searchYearDelim (lo hi : Char) (s : List Char) : Option String :=
  match s with
  | [] => none
  | c :: rest =>
    match yearDelimAt lo hi (c :: rest) with
    | some (g1, _) => some (String.mk g1)
    | none => searchYearDelim lo hi rest

/-- Removal of every delimited-year match; the fuel is never exhausted when
seeded with the input length. -/
def subYearDelimF (lo hi : Char) : Nat → List Char → List Char
  | 0, s => s
  | _ + 1, [] => []
  | fuel + 1, c :: rest =>
    match yearDelimAt lo hi (c :: rest) with
    | some (_, after) => subYearDelimF lo hi fuel after
    | none => c :: subYearDelimF lo hi fuel rest

/-- The delimited-year removal scan. -/
def subYearDelim (lo hi : Char) (s : List Char) : List Char :=
  subYearDelimF lo hi (s.length + 1) s

/-- Characters collapsed to a space after year removal. -/
def isCollapseChar (c : Char) : Bool :=
  c == '-' || c == '_' || c == '(' || c == ')' || c == '[' || c == ']'

/-- The separator-collapse substitution: every run of spaces around one
delimiter character becomes a single space.  The fuel is never exhausted when
seeded with the input length. -/
def collapseSubF : Nat → List Char → List Char
  | 0, s => s
  | _ + 1, [] => []
  | fuel + 1, c :: rest =>
    match (c :: rest).dropWhile isPySpace with
    | x :: r2 =>
      if isCollapseChar x then ' ' :: collapseSubF fuel (r2.dropWhile isPySpace)
      else c :: collapseSubF fuel rest
    | [] => c :: collapseSubF fuel rest

/-- The separator-collapse scan. -/
def collapseSub (s : List Char) : List Char := collapseSubF (s.length + 1) s

/-- Album and year derivation from the last path segment: the three year
patterns are tried in order, the first match gives the year group; the match
is removed everywhere and separators are collapsed; with no match the segment
is kept raw.  Returns the album text and the year. -/
def albumYear (albumPart : String) : String × String :=
  let ap := albumPart.toList
  match searchYear1 none ap with
  | some y => (String.mk (stripL (collapseSub (stripL (subYear1 none ap)))), y)
  | none =>
    match searchYearDelim '(' ')' ap with
    | some y => (String.mk (stripL (collapseSub (stripL (subYearDelim '(' ')' ap)))), y)
    | none =>
      match searchYearDelim '[' ']' ap with
      | some y => (String.mk (stripL (collapseSub (stripL (subYearDelim '[' ']' ap)))), y)
      | none => (albumPart, "")

/-! ### `parse_directory_structure` -/

/-- The record derived from one file position: the dict built by
`parse_directory_structure`, with the generic flag kept as a boolean. -/
structure PathMeta where
  title : String
  artist : String
  album : String
  year : String
  track_number : String
  is_generic : Bool
deriving DecidableEq

/-- The various-artists aliases normalised to a canonical label. -/
def variousAliases : List String := ["various artists", "various", "compilation", "va"]

/-- Body of `parse_directory_structure` on the directory segments (filename
excluded) and the filename stem. -/
def parse_directory_structure_core (parts : List String) (filename : String) : PathMeta :=
  let isGen := is_generic_filename filename
  let tnTitle :=
    match _extract_track_number filename with
    | some n =>
      if n ≠ 0 then
        (pyZfill (toString n) 2, if isGen then pyCleanTitle filename else filename)
      else ("", filename)
    | none => ("", filename)
  let albumYearPair :=
    match parts.getLast? with
    | some ap => albumYear ap
    | none => ("", "")
  let artist :=
    if 2 ≤ parts.length then
      let artistPart := (parts.dropLast.getLast?).getD ""
      if variousAliases.contains (lowerS artistPart) then "Various Artists" else artistPart
    else ""
  { title := stripS tnTitle.2, artist := stripS artist, album := stripS albumYearPair.1,
    year := stripS albumYearPair.2, track_number := tnTitle.1, is_generic := isGen }

/-- Splitting a character list at every slash. -/
def splitSlashAux : List Char → List Char → List String
  | [], acc => [String.mk acc.reverse]
  | c :: rest, acc =>
    if c = '/' then String.mk acc.reverse :: splitSlashAux rest []
    else splitSlashAux rest (c :: acc)

/-- Segments of a POSIX path, as `pathlib` exposes them for the paths the
program walks. -/
def pySplitPath (p : String) : List String :=
  (splitSlashAux p.toList []).filter (fun s => s != "")

/-- `Path.stem`: the final component without its last suffix; a name whose
only dot leads it, or whose dot trails it, has no suffix. -/
def pyStem (name : String) : String :=
  let cs := name.toList
  let revPre := cs.reverse.takeWhile (fun c => c != '.')
  if revPre.length = cs.length then name
  else if revPre.isEmpty then name
  else if cs.length - revPre.length - 1 = 0 then name
  else String.mk (cs.take (cs.length - revPre.length - 1))

/-- `parse_directory_structure` on the file path and the scan root: relative
segments are computed, the filename is split off and reduced to its stem. -/
def parse_directory_structure (filePath sourcePath : String) : PathMeta :=
  let rel := (pySplitPath filePath).drop (pySplitPath sourcePath).length
  parse_directory_structure_core rel.dropLast (pyStem (rel.getLast?.getD ""))

/-! ### The completeness predicate `_is_metadata_complete` -/

/-- One essential field check: the field is present, truthy, and not blank
after stripping. -/
def essentialOk (md : Metadata) (f : String) : Bool :=
  match mget md f with
  | none => false
  | some v => v != "" && stripS v != ""

/-- `_is_metadata_complete`: the essential fields pass, the title is not a
generic name, and one of the two MusicBrainz identifiers is present. -/
def is_metadata_complete (md : Metadata) : Bool :=
  essentialOk md "title" && essentialOk md "artist" && essentialOk md "album" &&
  !is_generic_filename (mgetD md "title" "") &&
  (mgetD md "musicbrainz_recordingid" "" != "" || mgetD md "musicbrainz_trackid" "" != "")

/-! ### The similarity scorer: `difflib.SequenceMatcher(None, a, b).ratio()`

The matcher used by the program has no junk predicate and all compared texts
are far below the autojunk threshold, so the ratio is the classic
matching-blocks ratio: twice the total size of the recursively chosen longest
matching blocks over the total length. -/

/-- Length of the common prefix of two character lists. -/
def commonPrefixLen : List Char → List Char → Nat
  | a :: as, b :: bs => if a = b then commonPrefixLen as bs + 1 else 0
  | _, _ => 0

/-- The longest matching block of two texts: the triple of start positions
and length, maximal in length, earliest in the first text and then in the
second among the maximal ones. -/
def longestMatch (a b : List Char) : Nat × Nat × Nat :=
  (List.range a.length).foldl
    (fun best i =>
      (List.range b.length).foldl
        (fun best j =>
          let k := commonPrefixLen (a.drop i) (b.drop j)
          if best.2.2 < k then (i, j, k) else best)
        best)
    (0, 0, 0)

/-- Total size of the matching blocks, by recursive splitting around the
longest match.  The fuel argument only bounds the recursion depth; each
recursive call strictly shrinks the combined length, so the initial fuel
given below is never exhausted. -/
def matchingSizeF : Nat → List Char → List Char → Nat
  | 0, _, _ => 0
  | fuel + 1, a, b =>
    let m := longestMatch a b
    if m.2.2 = 0 then 0
    else
      matchingSizeF fuel (a.take m.1) (b.take m.2.1) + m.2.2 +
        matchingSizeF fuel (a.drop (m.1 + m.2.2)) (b.drop (m.2.1 + m.2.2))

/-- Total size of the matching blocks of two texts. -/
def matchingSize (a b : List Char) : Nat :=
  matchingSizeF (a.length + b.length + 1) a b

/-- `SequenceMatcher.ratio()`: two empty texts give 1. -/
def seqRatio (a b : List Char) : ℚ :=
  if a.length + b.length = 0 then 1
  else (2 * matchingSize a b : ℚ) / ((a.length : ℚ) + (b.length : ℚ))

/-- Rendering of a rational for the string slots that store a float; no
decision of the program reads this text back. -/
def ratToStr (q : ℚ) : String := toString q.num ++ "/" ++ toString q.den

/-! ### External world and mutable state -/

/-- View of a `pylast` album object: each accessor may raise. -/
structure LfAlbumView where
  name : Except Unit String
  url : Except Unit String

/-- View of a `pylast` track object.  The `artistName` field merges the
`get_artist` call and the `get_name` call on its result: `none` is a missing
artist, an error on either call is the error case. -/
structure LfTrackView where
  name : Except Unit String
  artistName : Except Unit (Option String)
  url : Except Unit String
  playcount : Except Unit Nat
  listeners : Except Unit Nat
  album : Except Unit (Option LfAlbumView)
  topTags : Except Unit (List String)

/-- View of a `pylast` artist object. -/
structure LfArtistView where
  correction : Except Unit String

/-- A MusicBrainz artist object inside an artist credit. -/
structure MBArtistObj where
  id : Option String
  name : Option String

/-- One entry of a MusicBrainz artist-credit list. -/
structure MBArtistCredit where
  name : Option String
  artist : Option MBArtistObj

/-- A MusicBrainz release, as listed in search results and in the
release-list of a recording. -/
structure MBRelease where
  id : Option String
  title : Option String
  date : Option String
  artistCredit : Option (List MBArtistCredit)

/-- A MusicBrainz recording from a recording search. -/
structure MBRecording where
  id : Option String
  title : Option String
  artistCredit : Option (List MBArtistCredit)
  releaseList : Option (List MBRelease)

/-- The recording sub-object of a release track entry. -/
structure MBRecSimple where
  id : Option String
  title : Option String

/-- One track entry of a release medium. -/
structure MBTrackEntry where
  position : Option String
  title : Option String
  length : Option String
  recording : Option MBRecSimple

/-- One medium of a detailed release. -/
structure MBMedium where
  trackList : Option (List MBTrackEntry)

/-- The release body of a detailed release lookup. -/
structure MBReleaseDetail where
  mediumList : Option (List MBMedium)

/-- A detailed release lookup response. -/
structure MBDetailedRelease where
  release : Option MBReleaseDetail

/-- An AcoustID artist. -/
structure AcoArtist where
  name : Option String
  id : Option String

/-- An AcoustID track entry of a medium. -/
structure AcoTrackEntry where
  id : Option String
  position : Option String

/-- An AcoustID medium. -/
structure AcoMedium where
  tracks : Option (List AcoTrackEntry)

/-- An AcoustID release. -/
structure AcoRelease where
  title : Option String
  id : Option String
  date : Option String
  mediums : Option (List AcoMedium)

/-- An AcoustID recording. -/
structure AcoRecording where
  title : Option String
  id : Option String
  artists : Option (List AcoArtist)
  releases : Option (List AcoRelease)

/-- One result of an AcoustID lookup. -/
structure AcoResult where
  score : Option ℚ
  recordings : Option (List AcoRecording)

/-- An AcoustID lookup response. -/
structure AcoResponse where
  status : Option String
  results : Option (List AcoResult)

/-- The external world: one oracle per external operation the engine
performs.  An `Except.error` result is a raised exception. -/
structure Env where
  fpcalcOk : Bool
  fingerprintFile : String → Nat → Except String (String × String)
  acoustidLookup : String → String → Except Unit AcoResponse
  searchReleases : String → Except Unit (List MBRelease)
  getReleaseById : String → Except Unit MBDetailedRelease
  searchRecordings : String → Except Unit (List MBRecording)
  lfGetTrack : String → String → Except Unit LfTrackView
  lfGetArtist : String → Except Unit LfArtistView

/-- The file handle passed for fingerprinting: the name and size that build
the fingerprint cache key. -/
structure FileId where
  name : String
  size : Nat

/-- Mutable state of one `AdvancedMetadataLookup` instance: the four caches,
the two enabled flags, the rate limiter (counted), raw external call counters
and per-client external lookup counters. -/
structure ConvState where
  cache : List (String × Option Metadata)
  album_cache : List (String × Option (List Metadata))
  fingerprint_cache : List (String × Option Metadata)
  lastfm_cache : List (String × Option Metadata)
  fingerprint_enabled : Bool
  lastfm_enabled : Bool
  rateLimits : Nat
  nSearchReleases : Nat
  nGetReleaseById : Nat
  nSearchRecordings : Nat
  nFingerprintFile : Nat
  nAcoustidLookup : Nat
  nLfGetTrack : Nat
  nLfGetArtist : Nat
  albumLookups : Nat
  trackLookups : Nat
  fingerprintLookups : Nat
  lastfmLookups : Nat

/-- `_rate_limit`: a blocking wait, observable only through its counter. -/
def rateLimit (st : ConvState) : ConvState :=
  { st with rateLimits := st.rateLimits + 1 }

/-! ### Catalog album client: `search_album_tracks` -/

/-- The strict release query with quoted fields. -/
def strictAlbumQuery (artist album : String) : String :=
  "artist:\"" ++ artist ++ "\" AND release:\"" ++ album ++ "\""

/-- The relaxed release query without quotes. -/
def looseAlbumQuery (artist album : String) : String :=
  "artist:" ++ artist ++ " AND release:" ++ album

/-- Score of one candidate release: the mean of album-title similarity and
artist-name similarity; indexing an empty artist-credit list raises. -/
def albumCandidateScore (artist album : String) (r : MBRelease) : Except Unit ℚ :=
  let albumScore := seqRatio (lowerL album.toList) (lowerL (r.title.getD "").toList)
  match r.artistCredit with
  | some [] => .error ()
  | some (ac :: _) =>
    .ok ((albumScore + seqRatio (lowerL artist.toList) (lowerL (ac.name.getD "").toList)) / 2)
  | none => .ok ((albumScore + 0) / 2)

/-- Fold selecting the best-scoring release; a later candidate wins only
with a strictly greater score. -/
def pickBestRelease (artist album : String) :
    List MBRelease → ℚ → Option MBRelease → Except Unit (ℚ × Option MBRelease)
  | [], sc, best => .ok (sc, best)
  | r :: rs, sc, best =>
    match albumCandidateScore artist album r with
    | .error e => .error e
    | .ok total =>
      if sc < total then pickBestRelease artist album rs total (some r)
      else pickBestRelease artist album rs sc best

/-- One track-info record of the album track list, in dict-literal order. -/
def trackInfoOf (artist albumTitle date rid : String) (t : MBTrackEntry) : Metadata :=
  let base : Metadata :=
    [("position", t.position.getD ""),
     ("title", match t.recording with
               | some rec => rec.title.getD ""
               | none => t.title.getD ""),
     ("length", t.length.getD ""),
     ("artist", artist),
     ("album", albumTitle),
     ("date", date),
     ("musicbrainz_albumid", rid)]
  match t.recording with
  | some rec => base ++ [("musicbrainz_recordingid", rec.id.getD "")]
  | none => base

/-- The track list accumulated over the media of the detailed release. -/
def buildTracks (artist albumTitle date rid : String) (rel : MBReleaseDetail) :
    List Metadata :=
  match rel.mediumList with
  | none => []
  | some ms =>
    ms.foldl
      (fun acc m =>
        match m.trackList with
        | some ts => acc ++ ts.map (trackInfoOf artist albumTitle date rid)
        | none => acc)
      []

/-- Body of the try block of `search_album_tracks`: strict then relaxed
search, best-release selection above 0.7, then the detailed release fetch. -/
def albumCore (env : Env) (st : ConvState) (artist album : String) :
    Except Unit (Option (List Metadata)) × ConvState :=
  let st := rateLimit st
  let st := { st with nSearchReleases := st.nSearchReleases + 1 }
  match env.searchReleases (strictAlbumQuery artist album) with
  | .error e => (.error e, st)
  | .ok rl0 =>
    let relaxed :=
      if rl0.isEmpty then
        ({ st with nSearchReleases := st.nSearchReleases + 1 },
         env.searchReleases (looseAlbumQuery artist album))
      else (st, .ok rl0)
    match relaxed.2 with
    | .error e => (.error e, relaxed.1)
    | .ok rl =>
      let st := relaxed.1
      if rl.isEmpty then (.ok none, st)
      else
        match pickBestRelease artist album rl 0 none with
        | .error e => (.error e, st)
        | .ok (score, none) => (.ok none, st)
        | .ok (score, some best) =>
          if (7 : ℚ)/10 < score then
            match best.id with
            | none => (.error (), st)
            | some rid =>
              let st := rateLimit st
              let st := { st with nGetReleaseById := st.nGetReleaseById + 1 }
              match env.getReleaseById rid with
              | .error e => (.error e, st)
              | .ok det =>
                match det.release with
                | some rel =>
                  (.ok (some (buildTracks artist (best.title.getD album)
                    (best.date.getD "") rid rel)), st)
                | none => (.ok none, st)
          else (.ok none, st)

/-- `search_album_tracks`: required-field check, cache consultation, then the
guarded body; every completed or raising body run stores its outcome under
the lowercased query key. -/
def search_album_tracks (env : Env) (st : ConvState) (artist album : String) :
    Option (List Metadata) × ConvState :=
  if artist == "" || album == "" then (none, st)
  else
    let key := lowerS ("album_" ++ artist ++ "|" ++ album)
    match aget st.album_cache key with
    | some v => (v, st)
    | none =>
      let st := { st with albumLookups := st.albumLookups + 1 }
      match albumCore env st artist album with
      | (.ok v, st1) => (v, { st1 with album_cache := aset st1.album_cache key v })
      | (.error _, st1) => (none, { st1 with album_cache := aset st1.album_cache key none })

/-- Position test of `search_track_by_position`: Python `int` on the position
field (default 0 when the key is missing) compared with the track number; a
`ValueError` skips the entry. -/
def posMatches (n : Nat) (t : Metadata) : Bool :=
  match mget t "position" with
  | some s =>
    match parsePyInt s with
    | some v => v == (n : Int)
    | none => false
  | none => (0 : Int) == (n : Int)

/-- `search_track_by_position`: the album track list is searched for an equal
position, then by one-based index. -/
def search_track_by_position (env : Env) (st : ConvState) (artist album : String)
    (n : Nat) : Option Metadata × ConvState :=
  match search_album_tracks env st artist album with
  | (none, st) => (none, st)
  | (some tracks, st) =>
    if tracks.isEmpty then (none, st)
    else
      match tracks.find? (posMatches n) with
      | some t => (some t, st)
      | none =>
        if 0 ≤ (n : Int) - 1 ∧ (n : Int) - 1 < (tracks.length : Int) then
          match tracks.get? (n - 1) with
          | some t => (some t, st)
          | none => (none, st)
        else (none, st)

/-! ### Catalog track client: `search_musicbrainz_individual` -/

/-- The four recording query formulations, in source order. -/
def recQueries (artist album title : String) : List String :=
  ["artist:\"" ++ artist ++ "\" AND recording:\"" ++ title ++ "\"" ++
     (if album != "" then " AND release:\"" ++ album ++ "\"" else ""),
   "artist:" ++ artist ++ " AND recording:" ++ title ++
     (if album != "" then " AND release:" ++ album else ""),
   "artist:" ++ artist ++ " AND recording:" ++ title,
   artist ++ " " ++ title]

/-- Score of one candidate recording: weighted title, artist and best-album
similarity; indexing an empty artist-credit list raises. -/
def recCandidateScore (artist album title : String) (rec : MBRecording) :
    Except Unit ℚ :=
  let titleScore := seqRatio (lowerL title.toList) (lowerL (rec.title.getD "").toList)
  let artistScoreE : Except Unit ℚ :=
    match rec.artistCredit with
    | some [] => .error ()
    | some (ac :: _) =>
      .ok (seqRatio (lowerL artist.toList) (lowerL (ac.name.getD "").toList))
    | none => .ok 0
  match artistScoreE with
  | .error e => .error e
  | .ok artistScore =>
    let albumScore :=
      if album != "" then
        match rec.releaseList with
        | some rels =>
          rels.foldl
            (fun m rel =>
              max m (seqRatio (lowerL album.toList) (lowerL (rel.title.getD "").toList)))
            0
        | none => 0
      else 0
    .ok (titleScore * (1/2) + artistScore * (3/10) + albumScore * (1/5))

/-- Fold selecting the best-scoring recording. -/
def pickBestRec (artist album title : String) :
    List MBRecording → ℚ → Option MBRecording → Except Unit (ℚ × Option MBRecording)
  | [], sc, best => .ok (sc, best)
  | r :: rs, sc, best =>
    match recCandidateScore artist album title r with
    | .error e => .error e
    | .ok total =>
      if sc < total then pickBestRec artist album title rs total (some r)
      else pickBestRec artist album title rs sc best

/-- `_extract_recording_metadata`: the record built from the chosen
recording; indexing an empty credit or release list raises. -/
def extract_recording_metadata (rec : MBRecording) (fa fal ft : String) :
    Except Unit Metadata :=
  let md : Metadata :=
    [("musicbrainz_recordingid", rec.id.getD ""),
     ("title", rec.title.getD ft),
     ("artist", fa),
     ("album", fal)]
  let mdArtistE : Except Unit Metadata :=
    match rec.artistCredit with
    | some [] => .error ()
    | some (ac :: _) =>
      match ac.artist with
      | some aobj =>
        .ok (mset (mset md "musicbrainz_artistid" (aobj.id.getD "")) "artist" (aobj.name.getD fa))
      | none => .ok md
    | none => .ok md
  match mdArtistE with
  | .error e => .error e
  | .ok md =>
    match rec.releaseList with
    | some [] => .error ()
    | some (rel :: _) =>
      .ok (mset (mset (mset md "musicbrainz_albumid" (rel.id.getD ""))
            "album" (rel.title.getD fal)) "date" (rel.date.getD ""))
    | none => .ok md

/-- The strategy loop of `search_musicbrainz_individual`: an accepted best
candidate returns; a raised search, scoring or extraction continues with the
next formulation directly (the per-strategy handler skips the rate limiter);
a normally completed miss waits on the rate limiter before every formulation
but the last. -/
def trackStratLoop (env : Env) (artist album title : String) :
    ConvState → List String → Nat → Option Metadata × ConvState
  | st, [], _ => (none, st)
  | st, q :: rest, i =>
    let st := { st with nSearchRecordings := st.nSearchRecordings + 1 }
    match env.searchRecordings q with
    | .error _ => trackStratLoop env artist album title st rest (i + 1)
    | .ok recs =>
      if recs.isEmpty then
        trackStratLoop env artist album title
          (if rest.isEmpty then st else rateLimit st) rest (i + 1)
      else
        match pickBestRec artist album title recs 0 none with
        | .error _ => trackStratLoop env artist album title st rest (i + 1)
        | .ok (_, none) =>
          trackStratLoop env artist album title
            (if rest.isEmpty then st else rateLimit st) rest (i + 1)
        | .ok (score, some best) =>
          if (if i = 0 then (4 : ℚ)/5 else (3 : ℚ)/5) ≤ score then
            match extract_recording_metadata best artist album title with
            | .error _ => trackStratLoop env artist album title st rest (i + 1)
            | .ok md => (some md, st)
          else
            trackStratLoop env artist album title
              (if rest.isEmpty then st else rateLimit st) rest (i + 1)

/-- `search_musicbrainz_individual`: required-field check, cache
consultation, one rate-limited pass over the four formulations; the outcome,
a record or the no-match marker, is stored under the lowercased key. -/
def search_musicbrainz_individual (env : Env) (st : ConvState)
    (artist album title : String) : Option Metadata × ConvState :=
  if artist == "" || title == "" then (none, st)
  else
    let key := lowerS ("track_" ++ artist ++ "|" ++ album ++ "|" ++ title)
    match aget st.cache key with
    | some v => (v, st)
    | none =>
      let st := { st with trackLookups := st.trackLookups + 1 }
      let st := rateLimit st
      match trackStratLoop env artist album title st (recQueries artist album title) 0 with
      | (v, st1) => (v, { st1 with cache := aset st1.cache key v })

/-! ### Acoustic identification client: `audio_fingerprint_lookup` -/

/-- Metadata built from one high-confidence AcoustID recording, following
the assignment order of the source; later media overwrite the track number
because the inner break leaves the medium loop running. -/
def acoMetadataOf (durationStr : String) (score : ℚ) (rec : AcoRecording) : Metadata :=
  let md : Metadata :=
    [("title", rec.title.getD ""),
     ("musicbrainz_recordingid", rec.id.getD ""),
     ("duration", durationStr),
     ("acoustid_score", ratToStr score)]
  let md :=
    match rec.artists with
    | some (a :: _) => mset (mset md "artist" (a.name.getD "")) "musicbrainz_artistid" (a.id.getD "")
    | _ => md
  match rec.releases with
  | some (rel :: _) =>
    let md := mset (mset (mset md "album" (rel.title.getD ""))
      "musicbrainz_albumid" (rel.id.getD "")) "date" (rel.date.getD "")
    match rel.mediums with
    | some ms =>
      ms.foldl
        (fun md m =>
          match m.tracks with
          | some ts =>
            match ts.find? (fun t => t.id == rec.id) with
            | some t => mset md "track_number" (t.position.getD "")
            | none => md
          | none => md)
        md
    | none => md
  | _ => md

/-- First result above the 0.8 score bar whose recording list is non-empty. -/
def findAcoMatch (durationStr : String) : List AcoResult → Option Metadata
  | [] => none
  | r :: rs =>
    if (4 : ℚ)/5 < r.score.getD 0 then
      match r.recordings.getD [] with
      | rec :: _ => some (acoMetadataOf durationStr (r.score.getD 0) rec)
      | [] => findAcoMatch durationStr rs
    else findAcoMatch durationStr rs

/-- Body of `audio_fingerprint_lookup` past the cache: the fpcalc probe (a
failed probe disables the client), fingerprint generation (an error naming
fpcalc disables the client), then the AcoustID lookup. -/
def fingerprintCore (env : Env) (st : ConvState) (f : FileId) :
    Option Metadata × ConvState :=
  if !env.fpcalcOk then (none, { st with fingerprint_enabled := false })
  else
    let st := { st with nFingerprintFile := st.nFingerprintFile + 1 }
    match env.fingerprintFile f.name f.size with
    | .error msg =>
      if containsSub "fpcalc".toList (lowerL msg.toList) then
        (none, { st with fingerprint_enabled := false })
      else (none, st)
    | .ok (durationStr, fingerprint) =>
      if fingerprint == "" then (none, st)
      else
        let st := { st with nAcoustidLookup := st.nAcoustidLookup + 1 }
        match env.acoustidLookup fingerprint durationStr with
        | .error _ => (none, st)
        | .ok resp =>
          if resp.status.getD "" == "ok" && !(resp.results.getD []).isEmpty then
            match findAcoMatch durationStr (resp.results.getD []) with
            | some md => (some md, st)
            | none => (none, st)
          else (none, st)

/-- `audio_fingerprint_lookup`: disabled-client check, cache consultation on
the name-and-size key, then the body; every body outcome is stored. -/
def audio_fingerprint_lookup (env : Env) (st : ConvState) (f : FileId) :
    Option Metadata × ConvState :=
  if !st.fingerprint_enabled then (none, st)
  else
    let key := "fingerprint_" ++ f.name ++ "_" ++ toString f.size
    match aget st.fingerprint_cache key with
    | some v => (v, st)
    | none =>
      let st := { st with fingerprintLookups := st.fingerprintLookups + 1 }
      match fingerprintCore env st f with
      | (v, st1) => (v, { st1 with fingerprint_cache := aset st1.fingerprint_cache key v })

/-! ### Text search client: `lastfm_search` -/

/-- The direct-hit block of `lastfm_search`: track lookup, detail reads with
their inner fallbacks, confidence computation.  Returns the built record and
its confidence, or nothing when the lookup or an essential detail read
raised. -/
def lfDirect (env : Env) (st : ConvState) (artist title album : String) :
    Option (Metadata × ℚ) × ConvState :=
  let st := { st with nLfGetTrack := st.nLfGetTrack + 1 }
  match env.lfGetTrack artist title with
  | .error _ => (none, st)
  | .ok tr =>
    match tr.name with
    | .error _ => (none, st)
    | .ok trackTitle =>
      match tr.artistName with
      | .error _ => (none, st)
      | .ok artOpt =>
        let trackArtist := match artOpt with
          | some nm => nm
          | none => artist
        match tr.url with
        | .error _ => (none, st)
        | .ok trackUrl =>
          let md : Metadata :=
            [("title", if trackTitle != "" then trackTitle else title),
             ("artist", if trackArtist != "" then trackArtist else artist),
             ("lastfm_url", if trackUrl != "" then trackUrl else "")]
          let md := mset md "playcount"
            (match tr.playcount with
             | .ok p => if p ≠ 0 then toString p else "0"
             | .error _ => "0")
          let md := mset md "listeners"
            (match tr.listeners with
             | .ok p => if p ≠ 0 then toString p else "0"
             | .error _ => "0")
          let md :=
            match tr.album with
            | .error _ => if album != "" then mset md "album" album else md
            | .ok none => if album != "" then mset md "album" album else md
            | .ok (some alb) =>
              match alb.name with
              | .error _ => if album != "" then mset md "album" album else md
              | .ok albumTitle =>
                if albumTitle != "" then
                  let md := mset md "album" albumTitle
                  match alb.url with
                  | .ok u => mset md "lastfm_album_url" (if u != "" then u else "")
                  | .error _ => if album != "" then mset md "album" album else md
                else md
          let md :=
            match tr.topTags with
            | .ok tags =>
              if !tags.isEmpty then mset md "genre" (String.intercalate ", " tags) else md
            | .error _ => md
          let titleSim := seqRatio (lowerL title.toList) (lowerL (mgetD md "title" "").toList)
          let artistSim := seqRatio (lowerL artist.toList) (lowerL (mgetD md "artist" "").toList)
          let confidence := (titleSim + artistSim) / 2
          (some (mset md "lastfm_confidence" (ratToStr confidence), confidence), st)

/-- The artist-correction retry of `lastfm_search`: a corrected artist that
differs from the query re-runs the track lookup and returns its record
unconditionally; any raise abandons the retry. -/
def lfCorrection (env : Env) (st : ConvState) (artist title album : String) :
    Option Metadata × ConvState :=
  let st := { st with nLfGetArtist := st.nLfGetArtist + 1 }
  match env.lfGetArtist artist with
  | .error _ => (none, st)
  | .ok aobj =>
    match aobj.correction with
    | .error _ => (none, st)
    | .ok corrected =>
      if corrected != "" && corrected != artist then
        let st := { st with nLfGetTrack := st.nLfGetTrack + 1 }
        match env.lfGetTrack corrected title with
        | .error _ => (none, st)
        | .ok tr =>
          match tr.name with
          | .error _ => (none, st)
          | .ok trackTitle =>
            match tr.artistName with
            | .error _ => (none, st)
            | .ok artOpt =>
              let trackArtist := match artOpt with
                | some nm => nm
                | none => corrected
              (some [("title", if trackTitle != "" then trackTitle else title),
                     ("artist", if trackArtist != "" then trackArtist else corrected),
                     ("album", album),
                     ("lastfm_corrected", "true")], st)
      else (none, st)

/-- Body of `lastfm_search` past the cache: the direct block returns only
above the 0.8 confidence bar; otherwise, and after a raised direct block, the
correction retry runs. -/
def lastfmCore (env : Env) (st : ConvState) (artist title album : String) :
    Option Metadata × ConvState :=
  match lfDirect env st artist title album with
  | (some (md, confidence), st) =>
    if (4 : ℚ)/5 < confidence then (some md, st)
    else lfCorrection env st artist title album
  | (none, st) => lfCorrection env st artist title album

/-- `lastfm_search`: the disabled client and missing fields return
immediately; otherwise the cache is consulted and the body outcome is stored
under the lowercased key. -/
def lastfm_search (env : Env) (st : ConvState) (artist title album : String) :
    Option Metadata × ConvState :=
  if !st.lastfm_enabled || artist == "" || title == "" then (none, st)
  else
    let key := lowerS ("lastfm_" ++ artist ++ "|" ++ title ++ "|" ++ album)
    match aget st.lastfm_cache key with
    | some v => (v, st)
    | none =>
      let st := { st with lastfmLookups := st.lastfmLookups + 1 }
      match lastfmCore env st artist title album with
      | (v, st1) => (v, { st1 with lastfm_cache := aset st1.lastfm_cache key v })

/-! ### The resolution strategy: `get_metadata` -/

/-- Truthiness of the optional track number argument. -/
def tnTruthy : Option Nat → Bool
  | some n => n != 0
  | none => false

/-- Track-number backfill applied to an accepted source result. -/
def backfillTrack : Option Nat → Metadata → Metadata
  | some n, md =>
    if n != 0 && mgetD md "track_number" "" == "" then
      mset md "track_number" (pyZfill (toString n) 2)
    else md
  | none, md => md

/-- The strategy-six fallback record built from the caller fields. -/
def fallbackMD (artist album title : String) (tn : Option Nat) : Metadata :=
  [("title", title),
   ("artist", artist),
   ("album", album),
   ("track_number", match tn with
                    | some n => if n != 0 then pyZfill (toString n) 2 else ""
                    | none => "")]

/-- Overlay of existing tags onto the fallback: a truthy existing value fills
a missing or falsy fallback slot. -/
def mergeExisting (fb : Metadata) (em : Metadata) : Metadata :=
  em.foldl (fun fb kv => if kv.2 != "" && mgetD fb kv.1 "" == "" then mset fb kv.1 kv.2 else fb) fb

/-- The guarded fingerprint attempt shared by strategies two and four: a
file handle and an enabled client run the acoustic lookup. -/
def fingerprintStep (env : Env) (st : ConvState) (fp : Option FileId) :
    Option Metadata × ConvState :=
  match fp with
  | some f =>
    if st.fingerprint_enabled then audio_fingerprint_lookup env st f else (none, st)
  | none => (none, st)

/-- The strategy-six exit: the fallback record, overlaid with truthy
existing tags. -/
def fallbackStep (artist album title : String) (tn : Option Nat)
    (em : Option Metadata) (st : ConvState) : Metadata × ConvState :=
  let fb := fallbackMD artist album title tn
  match em with
  | some e => if !e.isEmpty then (mergeExisting fb e, st) else (fb, st)
  | none => (fb, st)

/-- Strategies two to six of `get_metadata`: fingerprint first for generic
names, then position lookup; the individual search, fingerprint and text
search for specific names; then the fallback overlaid with existing tags. -/
def getMetadataLookup (env : Env) (st : ConvState) (artist album title : String)
    (tn : Option Nat) (isGen : Bool) (fp : Option FileId)
    (em : Option Metadata) : Metadata × ConvState :=
  match (if isGen then fingerprintStep env st fp else (none, st)) with
  | (some fm, st) => (backfillTrack tn fm, st)
  | (none, st) =>
    match (if isGen && tnTruthy tn && artist != "" && album != "" then
             search_track_by_position env st artist album (tn.getD 0)
           else (none, st)) with
    | (some am, st) => (am, st)
    | (none, st) =>
      if !isGen then
        match search_musicbrainz_individual env st artist album title with
        | (some md, st) => (md, st)
        | (none, st) =>
          match fingerprintStep env st fp with
          | (some fm, st) => (backfillTrack tn fm, st)
          | (none, st) =>
            if st.lastfm_enabled then
              match lastfm_search env st artist title album with
              | (some lm, st) => (backfillTrack tn lm, st)
              | (none, st) => fallbackStep artist album title tn em st
            else fallbackStep artist album title tn em st
      else fallbackStep artist album title tn em st

/-- `get_metadata`: complete existing metadata short-circuits everything;
otherwise the lookup strategies run in order. -/
def get_metadata (env : Env) (st : ConvState) (artist album title : String)
    (track_number : Option Nat) (is_generic : Bool) (file_path : Option FileId)
    (existing_metadata : Option Metadata) : Metadata × ConvState :=
  match existing_metadata with
  | some e =>
    if !e.isEmpty && is_metadata_complete e then (e, st)
    else getMetadataLookup env st artist album title track_number is_generic
      file_path existing_metadata
  | none =>
    getMetadataLookup env st artist album title track_number is_generic
      file_path none

/-! ### The uncaught stat in the fingerprint cache key

`audio_fingerprint_lookup` builds its cache key from
`file_path.stat().st_size` (line 210) before the `try` that starts at line
214, and `get_metadata` installs no handler of its own, so an `OSError` from
that stat escapes both.  The definitions above take the statted data as
given; the definitions below make the stat explicit, so that this one
uncaught error path is expressible.  `FileId` remains the record of
successfully statted data that keys the cache. -/

/-- A `Path` handle as `audio_fingerprint_lookup` receives it: the `name`
attribute is plain data, while the `stat()` call that reads `st_size` for
the cache key may raise `OSError` (carried as the error message). -/
structure FileHandle where
  name : String
  statSize : Except String Nat

/-- The handle of a file whose stat succeeds with the recorded size. -/
def fhOfId (f : FileId) : FileHandle :=
  { name := f.name, statSize := Except.ok f.size }

/-- `audio_fingerprint_lookup` with the stat explicit: the disabled-client
check runs first (lines 207-208), then the cache key is built from the stat
(line 210) outside the `try` (line 214), so a failing stat escapes as an
error; past the key the cache consultation and the body proceed as in
`audio_fingerprint_lookup`. -/
def audio_fingerprint_lookupE (env : Env) (st : ConvState) (f : FileHandle) :
    Except String (Option Metadata) × ConvState :=
  if !st.fingerprint_enabled then (Except.ok none, st)
  else
    match f.statSize with
    | .error e => (Except.error e, st)
    | .ok size =>
      let key := "fingerprint_" ++ f.name ++ "_" ++ toString size
      match aget st.fingerprint_cache key with
      | some v => (Except.ok v, st)
      | none =>
        let st := { st with fingerprintLookups := st.fingerprintLookups + 1 }
        match fingerprintCore env st { name := f.name, size := size } with
        | (v, st1) =>
          (Except.ok v, { st1 with fingerprint_cache := aset st1.fingerprint_cache key v })

/-- The guarded fingerprint attempt over a raw handle: as `fingerprintStep`,
with the stat error propagated. -/
def fingerprintStepE (env : Env) (st : ConvState) (fp : Option FileHandle) :
    Except String (Option Metadata) × ConvState :=
  match fp with
  | some f =>
    if st.fingerprint_enabled then audio_fingerprint_lookupE env st f
    else (Except.ok none, st)
  | none => (Except.ok none, st)

/-- Strategies two to six over a raw handle: as `getMetadataLookup`, with a
stat error raised by either fingerprint attempt propagated. -/
def getMetadataLookupE (env : Env) (st : ConvState) (artist album title : String)
    (tn : Option Nat) (isGen : Bool) (fp : Option FileHandle)
    (em : Option Metadata) : Except String Metadata × ConvState :=
  match (if isGen then fingerprintStepE env st fp else (Except.ok none, st)) with
  | (.error e, st) => (Except.error e, st)
  | (.ok (some fm), st) => (Except.ok (backfillTrack tn fm), st)
  | (.ok none, st) =>
    match (if isGen && tnTruthy tn && artist != "" && album != "" then
             search_track_by_position env st artist album (tn.getD 0)
           else (none, st)) with
    | (some am, st) => (Except.ok am, st)
    | (none, st) =>
      if !isGen then
        match search_musicbrainz_individual env st artist album title with
        | (some md, st) => (Except.ok md, st)
        | (none, st) =>
          match fingerprintStepE env st fp with
          | (.error e, st) => (Except.error e, st)
          | (.ok (some fm), st) => (Except.ok (backfillTrack tn fm), st)
          | (.ok none, st) =>
            if st.lastfm_enabled then
              match lastfm_search env st artist title album with
              | (some lm, st) => (Except.ok (backfillTrack tn lm), st)
              | (none, st) =>
                match fallbackStep artist album title tn em st with
                | (fb, st) => (Except.ok fb, st)
            else
              match fallbackStep artist album title tn em st with
              | (fb, st) => (Except.ok fb, st)
      else
        match fallbackStep artist album title tn em st with
        | (fb, st) => (Except.ok fb, st)

/-- `get_metadata` over a raw handle: the complete-existing short circuit,
then the strategies, with a stat error propagated to the caller. -/
def get_metadataE (env : Env) (st : ConvState) (artist album title : String)
    (track_number : Option Nat) (is_generic : Bool) (file_path : Option FileHandle)
    (existing_metadata : Option Metadata) : Except String Metadata × ConvState :=
  match existing_metadata with
  | some e =>
    if !e.isEmpty && is_metadata_complete e then (Except.ok e, st)
    else getMetadataLookupE env st artist album title track_number is_generic
      file_path existing_metadata
  | none =>
    getMetadataLookupE env st artist album title track_number is_generic
      file_path none

/-! ### Specification predicates and concrete instances -/

/-- The confidence formula of the text-search acceptance rule: the mean of
title similarity and artist similarity between the query and a result. -/
def lfConfidence (qtitle qartist : String) (md : Metadata) : ℚ :=
  (seqRatio (lowerL qtitle.toList) (lowerL (mgetD md "title" "").toList) +
   seqRatio (lowerL qartist.toList) (lowerL (mgetD md "artist" "").toList)) / 2

/-- A state as the constructor builds it with both optional capabilities
configured: empty caches, enabled clients, zero counters. -/
def st0 : ConvState where
  cache := []
  album_cache := []
  fingerprint_cache := []
  lastfm_cache := []
  fingerprint_enabled := true
  lastfm_enabled := true
  rateLimits := 0
  nSearchReleases := 0
  nGetReleaseById := 0
  nSearchRecordings := 0
  nFingerprintFile := 0
  nAcoustidLookup := 0
  nLfGetTrack := 0
  nLfGetArtist := 0
  albumLookups := 0
  trackLookups := 0
  fingerprintLookups := 0
  lastfmLookups := 0

/-- A handle to a file that has disappeared: its stat raises OSError. -/
def fhBad : FileHandle :=
  { name := "missing.wav", statSize := Except.error "No such file or directory" }

/-- An environment in which every external operation raises. -/
def envFail : Env where
  fpcalcOk := true
  fingerprintFile := fun _ _ => .error "network down"
  acoustidLookup := fun _ _ => .error ()
  searchReleases := fun _ => .error ()
  getReleaseById := fun _ => .error ()
  searchRecordings := fun _ => .error ()
  lfGetTrack := fun _ _ => .error ()
  lfGetArtist := fun _ => .error ()

/-- The unrelated track served under the corrected artist name in the
correction-path environment below. -/
def trCorrected : LfTrackView where
  name := .ok "zzzz"
  artistName := .ok none
  url := .ok ""
  playcount := .ok 0
  listeners := .ok 0
  album := .ok none
  topTags := .ok []

/-- An environment whose direct text lookup raises and whose did-you-mean
correction of the artist yields an unrelated track. -/
def envCorr : Env :=
  { envFail with
    lfGetArtist := fun a => if a = "bbbb" then .ok ⟨.ok "gggg"⟩ else .error (),
    lfGetTrack := fun a t =>
      if a = "gggg" && t = "aaaa" then .ok trCorrected else .error () }

/-- A track whose fields echo one known query exactly, served by the
success environment below. -/
def trEcho : LfTrackView where
  name := .ok "Bohemian"
  artistName := .ok (some "Queen")
  url := .ok ""
  playcount := .ok 0
  listeners := .ok 0
  album := .ok none
  topTags := .ok []

/-- An environment whose only working operation is the direct text lookup of
one known track. -/
def envLfOk : Env :=
  { envFail with
    lfGetTrack := fun a t =>
      if a = "Queen" && t = "Bohemian" then .ok trEcho else .error () }

/-- A recording answering one known individual track query in the success
environment below. -/
def recEcho : MBRecording where
  id := some "R77"
  title := some "Bohemian"
  artistCredit := some [{ name := some "Queen", artist := some ⟨some "A77", some "Queen"⟩ }]
  releaseList := some [{ id := some "L77", title := some "Opera", date := some "1975",
                         artistCredit := none }]

/-- An environment whose only working operation answers the first individual
track query formulation for one known track. -/
def envRecOk : Env :=
  { envFail with
    searchRecordings := fun q =>
      if q = (recQueries "Queen" "Opera" "Bohemian").headD "" then .ok [recEcho]
      else .error () }

/-- Every external source of the environment raises on every query. -/
def AllFail (env : Env) : Prop :=
  (∀ q, env.searchReleases q = .error ()) ∧
  (∀ r, env.getReleaseById r = .error ()) ∧
  (∀ q, env.searchRecordings q = .error ()) ∧
  (∀ n s, ∃ msg, env.fingerprintFile n s = .error msg) ∧
  (∀ f d, env.acoustidLookup f d = .error ()) ∧
  (∀ a t, env.lfGetTrack a t = .error ()) ∧
  (∀ a, env.lfGetArtist a = .error ())

/-- All four client caches of the state are empty. -/
def CachesEmpty (st : ConvState) : Prop :=
  st.cache = [] ∧ st.album_cache = [] ∧ st.fingerprint_cache = [] ∧ st.lastfm_cache = []

/-! ### Association-list lemmas -/

theorem aget_aset_self {α : Type} (m : List (String × α)) (k : String) (v : α) :
    aget (aset m k v) k = some v := by
  induction m with
  | nil => simp [aset, aget]
  | cons p m ih =>
    obtain ⟨k1, v1⟩ := p
    by_cases h : k1 = k
    · subst h
      simp [aset, aget]
    · simp [aset, aget, h, ih]

theorem aget_aset_ne {α : Type} (m : List (String × α)) (k k2 : String) (v : α)
    (h : k ≠ k2) : aget (aset m k v) k2 = aget m k2 := by
  induction m with
  | nil => simp [aset, aget, h]
  | cons p m ih =>
    obtain ⟨k1, v1⟩ := p
    by_cases h1 : k1 = k
    · subst h1
      simp [aset, aget, h]
    · by_cases h2 : k1 = k2
      · subst h2
        simp [aset, aget, h1]
      · simp [aset, aget, h1, h2, ih]

theorem mget_mset_self (m : Metadata) (k v : String) : mget (mset m k v) k = some v :=
  aget_aset_self m k v

theorem mget_mset_ne (m : Metadata) (k k2 v : String) (h : k ≠ k2) :
    mget (mset m k v) k2 = mget m k2 :=
  aget_aset_ne m k k2 v h

/-! ### Claim C8 -/

/-- C8: the filename classifier returns true on the inputs Track 01,
05. Track05 and Pista 03 and false on Bohemian Rhapsody; it is a pure,
case-insensitive pattern function with no effect beyond its boolean value. -/
theorem C8_theorem :
    is_generic_filename "Track 01" = true ∧
    is_generic_filename "05. Track05" = true ∧
    is_generic_filename "Pista 03" = true ∧
    is_generic_filename "Bohemian Rhapsody" = false := by
  decide

/-! ### Claim C9 -/

/-- C9: a filename whose extracted track number is zero is handled like one
with no number at all: the parser keeps the empty track number and the raw
(stripped) stem as the title, skipping zero padding and generic-title
stripping. -/
theorem C9_theorem (parts : List String) (filename : String)
    (h : _extract_track_number filename = some 0) :
    (parse_directory_structure_core parts filename).track_number = "" ∧
    (parse_directory_structure_core parts filename).title = stripS filename := by
  unfold parse_directory_structure_core
  rw [h]
  simp

/-- C9 witness: the stem 00 extracts the number zero and is parsed with an
empty track number and the raw title. -/
theorem C9_witness :
    _extract_track_number "00" = some 0 ∧
    ((parse_directory_structure_core [] "00").track_number = "" ∧
     (parse_directory_structure_core [] "00").title = stripS "00") :=
  ⟨by decide, C9_theorem [] "00" (by decide)⟩

/-! ### Claim C7 -/

/-- C7 counterexample: on the documented example path the parser does not
produce the year 1975 (it stores the pattern group 19) and does not produce
the title Bohemian Rhapsody (the non-generic stem is kept whole). -/
theorem C7_counterexample :
    (parse_directory_structure
        "/music/Queen/A Night at the Opera (1975)/04 Bohemian Rhapsody.wav"
        "/music").year ≠ "1975" ∧
    (parse_directory_structure
        "/music/Queen/A Night at the Opera (1975)/04 Bohemian Rhapsody.wav"
        "/music").title ≠ "Bohemian Rhapsody" := by
  decide

/-- C7 as amended: the example path parses to artist Queen, album
A Night at the Opera, year 19 (the first two characters of the matched year,
an artefact of selecting the pattern group because the bare-year pattern text
contains a parenthesis), track number 04, title 04 Bohemian Rhapsody (the
stem is not generic, so no prefix is stripped), and a false generic flag. -/
theorem C7_theorem :
    parse_directory_structure
        "/music/Queen/A Night at the Opera (1975)/04 Bohemian Rhapsody.wav"
        "/music" =
      { title := "04 Bohemian Rhapsody", artist := "Queen",
        album := "A Night at the Opera", year := "19",
        track_number := "04", is_generic := false } := by
  decide

/-! ### Claim C10 -/

/-- C10: a missing required query field makes each client return the
no-match result immediately with a completely unchanged state: no external
call, no rate-limiter wait, no cache write; for the text client a disabled
flag does the same. -/
theorem C10_theorem :
    (∀ env st artist album, artist = "" ∨ album = "" →
      search_album_tracks env st artist album = (none, st)) ∧
    (∀ env st artist album title, artist = "" ∨ title = "" →
      search_musicbrainz_individual env st artist album title = (none, st)) ∧
    (∀ env st artist title album,
      st.lastfm_enabled = false ∨ artist = "" ∨ title = "" →
      lastfm_search env st artist title album = (none, st)) := by
  refine ⟨?_, ?_, ?_⟩
  · intro env st artist album h
    rcases h with h | h <;> simp [search_album_tracks, h]
  · intro env st artist album title h
    rcases h with h | h <;> simp [search_musicbrainz_individual, h]
  · intro env st artist title album h
    rcases h with h | h | h <;> simp [lastfm_search, h]

/-- C10 witness: concrete empty-field queries and a disabled text client
return no-match with the initial state untouched. -/
theorem C10_witness :
    search_album_tracks envFail st0 "" "x" = (none, st0) ∧
    search_musicbrainz_individual envFail st0 "a" "b" "" = (none, st0) ∧
    lastfm_search envFail st0 "" "t" "" = (none, st0) :=
  ⟨C10_theorem.1 envFail st0 "" "x" (Or.inl rfl),
   C10_theorem.2.1 envFail st0 "a" "b" "" (Or.inr rfl),
   C10_theorem.2.2 envFail st0 "" "t" "" (Or.inr (Or.inl rfl))⟩

/-! ### Frame lemmas: the state fields each operation can touch -/

theorem albumCore_shape (env : Env) (st : ConvState) (a b : String) :
    ∃ r ns ng, (albumCore env st a b).2 =
      { st with rateLimits := r, nSearchReleases := ns, nGetReleaseById := ng } := by
  simp only [albumCore, rateLimit]
  repeat' split
  all_goals exact ⟨_, _, _, rfl⟩

theorem search_album_tracks_shape (env : Env) (st : ConvState) (a b : String) :
    ∃ ac al r ns ng, (search_album_tracks env st a b).2 =
      { st with album_cache := ac, albumLookups := al, rateLimits := r,
                nSearchReleases := ns, nGetReleaseById := ng } := by
  unfold search_album_tracks
  dsimp only
  split
  · exact ⟨st.album_cache, st.albumLookups, st.rateLimits, st.nSearchReleases,
      st.nGetReleaseById, rfl⟩
  · split
    · exact ⟨st.album_cache, st.albumLookups, st.rateLimits, st.nSearchReleases,
        st.nGetReleaseById, rfl⟩
    · split
      next st1 heq =>
        obtain ⟨r, ns, ng, hshape⟩ :=
          albumCore_shape env { st with albumLookups := st.albumLookups + 1 } a b
        rw [heq] at hshape
        dsimp only at hshape
        subst hshape
        exact ⟨_, _, _, _, _, rfl⟩
      next st1 heq =>
        obtain ⟨r, ns, ng, hshape⟩ :=
          albumCore_shape env { st with albumLookups := st.albumLookups + 1 } a b
        rw [heq] at hshape
        dsimp only at hshape
        subst hshape
        exact ⟨_, _, _, _, _, rfl⟩

theorem search_track_by_position_shape (env : Env) (st : ConvState) (a b : String)
    (n : Nat) :
    ∃ ac al r ns ng, (search_track_by_position env st a b n).2 =
      { st with album_cache := ac, albumLookups := al, rateLimits := r,
                nSearchReleases := ns, nGetReleaseById := ng } := by
  unfold search_track_by_position
  split
  next st1 heq =>
    obtain ⟨ac, al, r, ns, ng, hshape⟩ := search_album_tracks_shape env st a b
    rw [heq] at hshape
    dsimp only at hshape
    subst hshape
    exact ⟨_, _, _, _, _, rfl⟩
  next tracks st1 heq =>
    obtain ⟨ac, al, r, ns, ng, hshape⟩ := search_album_tracks_shape env st a b
    rw [heq] at hshape
    dsimp only at hshape
    subst hshape
    repeat' split
    all_goals exact ⟨_, _, _, _, _, rfl⟩

theorem trackStratLoop_shape (env : Env) (a b t : String) :
    ∀ (qs : List String) (st : ConvState) (i : Nat),
      ∃ ns r, (trackStratLoop env a b t st qs i).2 =
        { st with nSearchRecordings := ns, rateLimits := r } := by
  intro qs
  induction qs with
  | nil =>
    intro st i
    exact ⟨st.nSearchRecordings, st.rateLimits, rfl⟩
  | cons q rest ih =>
    intro st i
    simp only [trackStratLoop, rateLimit]
    repeat' split
    all_goals first
      | exact ⟨_, _, rfl⟩
      | · obtain ⟨ns, r, h⟩ := ih _ (i + 1)
          exact ⟨ns, r, h⟩
      | skip

theorem search_musicbrainz_individual_shape (env : Env) (st : ConvState)
    (a b t : String) :
    ∃ c tl r ns, (search_musicbrainz_individual env st a b t).2 =
      { st with cache := c, trackLookups := tl, rateLimits := r,
                nSearchRecordings := ns } := by
  unfold search_musicbrainz_individual
  dsimp only
  split
  · exact ⟨st.cache, st.trackLookups, st.rateLimits, st.nSearchRecordings, rfl⟩
  · split
    · exact ⟨st.cache, st.trackLookups, st.rateLimits, st.nSearchRecordings, rfl⟩
    · obtain ⟨ns, r, hshape⟩ := trackStratLoop_shape env a b t (recQueries a b t)
        (rateLimit { st with trackLookups := st.trackLookups + 1 }) 0
      rw [hshape]
      exact ⟨_, _, _, _, rfl⟩

theorem fingerprintCore_shape (env : Env) (st : ConvState) (f : FileId) :
    ∃ en nf na, (fingerprintCore env st f).2 =
      { st with fingerprint_enabled := en, nFingerprintFile := nf,
                nAcoustidLookup := na } := by
  unfold fingerprintCore
  repeat' split
  all_goals exact ⟨_, _, _, rfl⟩

theorem audio_fingerprint_lookup_shape (env : Env) (st : ConvState) (f : FileId) :
    ∃ fc fl en nf na, (audio_fingerprint_lookup env st f).2 =
      { st with fingerprint_cache := fc, fingerprintLookups := fl,
                fingerprint_enabled := en, nFingerprintFile := nf,
                nAcoustidLookup := na } := by
  unfold audio_fingerprint_lookup
  dsimp only
  split
  · exact ⟨st.fingerprint_cache, st.fingerprintLookups, st.fingerprint_enabled,
      st.nFingerprintFile, st.nAcoustidLookup, rfl⟩
  · split
    · exact ⟨st.fingerprint_cache, st.fingerprintLookups, st.fingerprint_enabled,
        st.nFingerprintFile, st.nAcoustidLookup, rfl⟩
    · obtain ⟨en, nf, na, hshape⟩ :=
        fingerprintCore_shape env { st with fingerprintLookups := st.fingerprintLookups + 1 } f
      rw [hshape]
      exact ⟨_, _, _, _, _, rfl⟩

theorem lfDirect_shape (env : Env) (st : ConvState) (a t al : String) :
    ∃ nt, (lfDirect env st a t al).2 = { st with nLfGetTrack := nt } := by
  refine ⟨st.nLfGetTrack + 1, ?_⟩
  unfold lfDirect
  dsimp only
  cases env.lfGetTrack a t with
  | error e => rfl
  | ok tr =>
    dsimp only
    cases tr.name with
    | error e => rfl
    | ok tt =>
      dsimp only
      cases tr.artistName with
      | error e => rfl
      | ok ao =>
        dsimp only
        cases tr.url with
        | error e => rfl
        | ok tu => rfl

theorem lfCorrection_shape (env : Env) (st : ConvState) (a t al : String) :
    ∃ nt na, (lfCorrection env st a t al).2 =
      { st with nLfGetTrack := nt, nLfGetArtist := na } := by
  unfold lfCorrection
  repeat' split
  all_goals exact ⟨_, _, rfl⟩

theorem lastfmCore_shape (env : Env) (st : ConvState) (a t al : String) :
    ∃ nt na, (lastfmCore env st a t al).2 =
      { st with nLfGetTrack := nt, nLfGetArtist := na } := by
  unfold lastfmCore
  split
  next md conf st1 heq =>
    obtain ⟨nt, hshape⟩ := lfDirect_shape env st a t al
    rw [heq] at hshape
    dsimp only at hshape
    subst hshape
    split
    · exact ⟨_, _, rfl⟩
    · obtain ⟨nt2, na2, h2⟩ := lfCorrection_shape env
        { st with nLfGetTrack := nt } a t al
      exact ⟨nt2, na2, h2⟩
  next st1 heq =>
    obtain ⟨nt, hshape⟩ := lfDirect_shape env st a t al
    rw [heq] at hshape
    dsimp only at hshape
    subst hshape
    obtain ⟨nt2, na2, h2⟩ := lfCorrection_shape env
      { st with nLfGetTrack := nt } a t al
    exact ⟨nt2, na2, h2⟩

theorem lastfm_search_shape (env : Env) (st : ConvState) (a t al : String) :
    ∃ lc ll nt na, (lastfm_search env st a t al).2 =
      { st with lastfm_cache := lc, lastfmLookups := ll, nLfGetTrack := nt,
                nLfGetArtist := na } := by
  unfold lastfm_search
  dsimp only
  split
  · exact ⟨st.lastfm_cache, st.lastfmLookups, st.nLfGetTrack, st.nLfGetArtist, rfl⟩
  · split
    · exact ⟨st.lastfm_cache, st.lastfmLookups, st.nLfGetTrack, st.nLfGetArtist, rfl⟩
    · obtain ⟨nt, na, hshape⟩ := lastfmCore_shape env
        { st with lastfmLookups := st.lastfmLookups + 1 } a t al
      rw [hshape]
      exact ⟨_, _, _, _, rfl⟩

/-! ### Preservation of the text-search state -/

theorem fingerprintStep_lf (env : Env) (st : ConvState) (fp : Option FileId) :
    (fingerprintStep env st fp).2.nLfGetTrack = st.nLfGetTrack ∧
    (fingerprintStep env st fp).2.nLfGetArtist = st.nLfGetArtist ∧
    (fingerprintStep env st fp).2.lastfmLookups = st.lastfmLookups ∧
    (fingerprintStep env st fp).2.lastfm_cache = st.lastfm_cache := by
  rcases fp with _ | f
  · exact ⟨rfl, rfl, rfl, rfl⟩
  · unfold fingerprintStep
    dsimp only
    split
    · obtain ⟨fc, fl, en, nf, na, h⟩ := audio_fingerprint_lookup_shape env st f
      rw [h]
      exact ⟨rfl, rfl, rfl, rfl⟩
    · exact ⟨rfl, rfl, rfl, rfl⟩

theorem stbp_lf (env : Env) (st : ConvState) (a b : String) (n : Nat) :
    (search_track_by_position env st a b n).2.nLfGetTrack = st.nLfGetTrack ∧
    (search_track_by_position env st a b n).2.nLfGetArtist = st.nLfGetArtist ∧
    (search_track_by_position env st a b n).2.lastfmLookups = st.lastfmLookups ∧
    (search_track_by_position env st a b n).2.lastfm_cache = st.lastfm_cache := by
  obtain ⟨ac, al, r, ns, ng, h⟩ := search_track_by_position_shape env st a b n
  rw [h]
  exact ⟨rfl, rfl, rfl, rfl⟩

theorem fallbackStep_snd (artist album title : String) (tn : Option Nat)
    (em : Option Metadata) (st : ConvState) :
    (fallbackStep artist album title tn em st).2 = st := by
  unfold fallbackStep
  rcases em with _ | e
  · rfl
  · dsimp only
    split <;> rfl

/-! ### Claim C4 -/

theorem gml_generic_lf (env : Env) (st : ConvState) (artist album title : String)
    (tn : Option Nat) (fp : Option FileId) (em : Option Metadata) :
    (getMetadataLookup env st artist album title tn true fp em).2.nLfGetTrack = st.nLfGetTrack ∧
    (getMetadataLookup env st artist album title tn true fp em).2.nLfGetArtist = st.nLfGetArtist ∧
    (getMetadataLookup env st artist album title tn true fp em).2.lastfmLookups = st.lastfmLookups ∧
    (getMetadataLookup env st artist album title tn true fp em).2.lastfm_cache = st.lastfm_cache := by
  unfold getMetadataLookup
  rw [if_pos rfl]
  split
  next fm st2 heq =>
    have hf := fingerprintStep_lf env st fp
    rw [heq] at hf
    dsimp only at hf
    exact hf
  next st2 heq =>
    have hf := fingerprintStep_lf env st fp
    rw [heq] at hf
    dsimp only at hf
    split
    next am st3 heq3 =>
      by_cases hc : (true && tnTruthy tn && artist != "" && album != "") = true
      · rw [if_pos hc] at heq3
        have hs := stbp_lf env st2 artist album (tn.getD 0)
        rw [heq3] at hs
        dsimp only at hs
        exact ⟨hs.1.trans hf.1, (hs.2.1).trans hf.2.1,
          (hs.2.2.1).trans hf.2.2.1, (hs.2.2.2).trans hf.2.2.2⟩
      · rw [if_neg hc] at heq3
        simp at heq3
    next st3 heq3 =>
      have hs3 : st3.nLfGetTrack = st2.nLfGetTrack ∧ st3.nLfGetArtist = st2.nLfGetArtist ∧
          st3.lastfmLookups = st2.lastfmLookups ∧ st3.lastfm_cache = st2.lastfm_cache := by
        by_cases hc : (true && tnTruthy tn && artist != "" && album != "") = true
        · rw [if_pos hc] at heq3
          have hs := stbp_lf env st2 artist album (tn.getD 0)
          rw [heq3] at hs
          dsimp only at hs
          exact hs
        · rw [if_neg hc] at heq3
          simp at heq3
          rw [← heq3]
          exact ⟨rfl, rfl, rfl, rfl⟩
      rw [if_neg (by decide)]
      rw [fallbackStep_snd]
      exact ⟨hs3.1.trans hf.1, (hs3.2.1).trans hf.2.1,
        (hs3.2.2.1).trans hf.2.2.1, (hs3.2.2.2).trans hf.2.2.2⟩

/-- C4: with the generic flag set, `get_metadata` never reaches the text
search client on any execution path: the Last.fm call counters, the Last.fm
lookup counter and the Last.fm cache are all unchanged. -/
theorem C4_theorem (env : Env) (st : ConvState) (artist album title : String)
    (tn : Option Nat) (fp : Option FileId) (em : Option Metadata) :
    (get_metadata env st artist album title tn true fp em).2.nLfGetTrack = st.nLfGetTrack ∧
    (get_metadata env st artist album title tn true fp em).2.nLfGetArtist = st.nLfGetArtist ∧
    (get_metadata env st artist album title tn true fp em).2.lastfmLookups = st.lastfmLookups ∧
    (get_metadata env st artist album title tn true fp em).2.lastfm_cache = st.lastfm_cache := by
  unfold get_metadata
  rcases em with _ | e
  · exact gml_generic_lf env st artist album title tn fp none
  · dsimp only
    split
    · exact ⟨rfl, rfl, rfl, rfl⟩
    · exact gml_generic_lf env st artist album title tn fp (some e)

/-! ### Claim C1, the counterexample -/

/-- C1 counterexample: a file directly under the scan root has an empty
path-derived artist; with no existing tags and no usable source the resolver
returns the fallback whose artist field is present but empty. -/
theorem C1_counterexample :
    mget (get_metadata envFail st0 "" "" "01" none true none none).1 "artist" = some "" := by
  decide

/-! ### Client behaviour when the external source raises -/

theorem sat_fail (env : Env) (st : ConvState) (a b : String)
    (ha : a ≠ "") (hb : b ≠ "")
    (hmiss : aget st.album_cache (lowerS ("album_" ++ a ++ "|" ++ b)) = none)
    (herr : env.searchReleases (strictAlbumQuery a b) = .error ()) :
    (search_album_tracks env st a b).1 = none ∧
    aget (search_album_tracks env st a b).2.album_cache
      (lowerS ("album_" ++ a ++ "|" ++ b)) = some none := by
  unfold search_album_tracks albumCore
  simp only [rateLimit, Bool.or_eq_true, beq_iff_eq, ha, hb, or_self, if_false, hmiss,
    herr, aget_aset_self]
  exact ⟨trivial, trivial⟩

theorem trackStratLoop_fail (env : Env) (a b t : String)
    (herr : ∀ q, env.searchRecordings q = .error ()) :
    ∀ (qs : List String) (st : ConvState) (i : Nat),
      (trackStratLoop env a b t st qs i).1 = none := by
  intro qs
  induction qs with
  | nil => intro st i; rfl
  | cons q rest ih =>
    intro st i
    simp only [trackStratLoop, herr]
    exact ih _ _

theorem smi_fail (env : Env) (st : ConvState) (a b t : String)
    (ha : a ≠ "") (ht : t ≠ "")
    (hmiss : aget st.cache (lowerS ("track_" ++ a ++ "|" ++ b ++ "|" ++ t)) = none)
    (herr : ∀ q, env.searchRecordings q = .error ()) :
    (search_musicbrainz_individual env st a b t).1 = none ∧
    aget (search_musicbrainz_individual env st a b t).2.cache
      (lowerS ("track_" ++ a ++ "|" ++ b ++ "|" ++ t)) = some none := by
  unfold search_musicbrainz_individual
  simp only [Bool.or_eq_true, beq_iff_eq, ha, ht, or_self, if_false, hmiss,
    trackStratLoop_fail env a b t herr, aget_aset_self]
  exact ⟨trivial, trivial⟩

theorem afl_fail (env : Env) (st : ConvState) (f : FileId) (msg : String)
    (hen : st.fingerprint_enabled = true)
    (hok : env.fpcalcOk = true)
    (hmiss : aget st.fingerprint_cache
      ("fingerprint_" ++ f.name ++ "_" ++ toString f.size) = none)
    (herr : env.fingerprintFile f.name f.size = .error msg) :
    (audio_fingerprint_lookup env st f).1 = none ∧
    aget (audio_fingerprint_lookup env st f).2.fingerprint_cache
      ("fingerprint_" ++ f.name ++ "_" ++ toString f.size) = some none := by
  unfold audio_fingerprint_lookup fingerprintCore
  simp only [hen, hok, Bool.not_true, if_false, Bool.false_eq_true, hmiss, herr,
    aget_aset_self]
  split <;> exact ⟨rfl, rfl⟩

theorem lfs_fail (env : Env) (st : ConvState) (a t al : String)
    (hen : st.lastfm_enabled = true) (ha : a ≠ "") (ht : t ≠ "")
    (hmiss : aget st.lastfm_cache
      (lowerS ("lastfm_" ++ a ++ "|" ++ t ++ "|" ++ al)) = none)
    (herrT : ∀ x y, env.lfGetTrack x y = .error ())
    (herrA : env.lfGetArtist a = .error ()) :
    (lastfm_search env st a t al).1 = none ∧
    aget (lastfm_search env st a t al).2.lastfm_cache
      (lowerS ("lastfm_" ++ a ++ "|" ++ t ++ "|" ++ al)) = some none := by
  unfold lastfm_search lastfmCore lfDirect lfCorrection
  simp only [hen, Bool.not_true, Bool.false_or, Bool.or_eq_true, beq_iff_eq, ha, ht,
    or_self, if_false, Bool.false_eq_true, hmiss, herrT, herrA, aget_aset_self]
  exact ⟨trivial, trivial⟩

/-! ### Clients under an all-failing environment with empty caches -/

theorem sat_allfail_none (env : Env) (st : ConvState) (a b : String)
    (hmiss : st.album_cache = [])
    (herr : ∀ q, env.searchReleases q = .error ()) :
    (search_album_tracks env st a b).1 = none := by
  unfold search_album_tracks albumCore
  dsimp only
  split
  · rfl
  · simp only [hmiss, aget, rateLimit, herr]

theorem stbp_allfail_none (env : Env) (st : ConvState) (a b : String) (n : Nat)
    (hmiss : st.album_cache = [])
    (herr : ∀ q, env.searchReleases q = .error ()) :
    (search_track_by_position env st a b n).1 = none := by
  unfold search_track_by_position
  rcases hsat : search_album_tracks env st a b with ⟨res, st1⟩
  have hres : res = none := by
    have h := sat_allfail_none env st a b hmiss herr
    rw [hsat] at h
    exact h
  subst hres
  simp only [hsat]

theorem smi_allfail_none (env : Env) (st : ConvState) (a b t : String)
    (hmiss : st.cache = [])
    (herr : ∀ q, env.searchRecordings q = .error ()) :
    (search_musicbrainz_individual env st a b t).1 = none := by
  unfold search_musicbrainz_individual
  dsimp only
  split
  · rfl
  · simp only [hmiss, aget, trackStratLoop_fail env a b t herr]

theorem afl_allfail_none (env : Env) (st : ConvState) (f : FileId)
    (hmiss : st.fingerprint_cache = [])
    (herr : ∀ n s, ∃ msg, env.fingerprintFile n s = .error msg) :
    (audio_fingerprint_lookup env st f).1 = none := by
  unfold audio_fingerprint_lookup fingerprintCore
  dsimp only
  split
  · rfl
  · simp only [hmiss, aget]
    obtain ⟨msg, hmsg⟩ := herr f.name f.size
    cases hok : env.fpcalcOk
    · simp [hok]
    · simp only [hok, Bool.not_true, Bool.false_eq_true, if_false, hmsg]
      split <;> rfl

theorem fingerprintStep_allfail_none (env : Env) (st : ConvState) (fp : Option FileId)
    (hmiss : st.fingerprint_cache = [])
    (herr : ∀ n s, ∃ msg, env.fingerprintFile n s = .error msg) :
    (fingerprintStep env st fp).1 = none := by
  rcases fp with _ | f
  · rfl
  · unfold fingerprintStep
    dsimp only
    split
    · exact afl_allfail_none env st f hmiss herr
    · rfl

theorem fingerprintStep_shape (env : Env) (st : ConvState) (fp : Option FileId) :
    ∃ fc fl en nf na, (fingerprintStep env st fp).2 =
      { st with fingerprint_cache := fc, fingerprintLookups := fl,
                fingerprint_enabled := en, nFingerprintFile := nf,
                nAcoustidLookup := na } := by
  rcases fp with _ | f
  · exact ⟨st.fingerprint_cache, st.fingerprintLookups, st.fingerprint_enabled,
      st.nFingerprintFile, st.nAcoustidLookup, rfl⟩
  · unfold fingerprintStep
    dsimp only
    split
    · exact audio_fingerprint_lookup_shape env st f
    · exact ⟨st.fingerprint_cache, st.fingerprintLookups, st.fingerprint_enabled,
        st.nFingerprintFile, st.nAcoustidLookup, rfl⟩

theorem lfs_allfail_none (env : Env) (st : ConvState) (a t al : String)
    (hmiss : st.lastfm_cache = [])
    (herrT : ∀ x y, env.lfGetTrack x y = .error ())
    (herrA : ∀ x, env.lfGetArtist x = .error ()) :
    (lastfm_search env st a t al).1 = none := by
  unfold lastfm_search lastfmCore lfDirect lfCorrection
  dsimp only
  split
  · rfl
  · simp only [hmiss, aget, herrT, herrA]

/-- Under an all-failing environment with empty caches and no existing
metadata, every lookup strategy misses and the resolution returns the
path-derived fallback record. -/
theorem gml_allfail (env : Env) (st : ConvState) (artist album title : String)
    (tn : Option Nat) (isGen : Bool) (fp : Option FileId)
    (hf : AllFail env) (hc : CachesEmpty st) :
    (getMetadataLookup env st artist album title tn isGen fp none).1 =
      fallbackMD artist album title tn := by
  obtain ⟨hsr, hgr, hrec, hff, hal, hlt, hla⟩ := hf
  obtain ⟨hc1, hc2, hc3, hc4⟩ := hc
  unfold getMetadataLookup
  cases isGen
  case true =>
    rw [if_pos rfl]
    rcases hfs : fingerprintStep env st fp with ⟨res2, st2⟩
    have hres2 : res2 = none := by
      have h := fingerprintStep_allfail_none env st fp hc3 hff
      rw [hfs] at h
      exact h
    subst hres2
    obtain ⟨fc, fl, en, nf, na, hsh2⟩ := fingerprintStep_shape env st fp
    rw [hfs] at hsh2
    dsimp only at hsh2
    subst hsh2
    dsimp only
    by_cases hcnd : (true && tnTruthy tn && artist != "" && album != "") = true
    · rw [if_pos hcnd]
      rcases hs3 : search_track_by_position env
          { st with fingerprint_cache := fc, fingerprintLookups := fl,
                    fingerprint_enabled := en, nFingerprintFile := nf,
                    nAcoustidLookup := na } artist album (tn.getD 0) with ⟨res3, st3⟩
      have hres3 : res3 = none := by
        have h := stbp_allfail_none env
          { st with fingerprint_cache := fc, fingerprintLookups := fl,
                    fingerprint_enabled := en, nFingerprintFile := nf,
                    nAcoustidLookup := na } artist album (tn.getD 0) hc2 hsr
        rw [hs3] at h
        exact h
      subst hres3
      dsimp only
      rw [if_neg (by decide)]
      rfl
    · rw [if_neg hcnd]
      dsimp only
      rw [if_neg (by decide)]
      rfl
  case false =>
    rw [if_neg (by decide)]
    dsimp only
    simp only [Bool.false_and]
    rw [if_neg (by decide)]
    dsimp only
    rw [if_pos (by decide)]
    rcases hsmi : search_musicbrainz_individual env st artist album title with ⟨res4, st4⟩
    have hres4 : res4 = none := by
      have h := smi_allfail_none env st artist album title hc1 hrec
      rw [hsmi] at h
      exact h
    subst hres4
    obtain ⟨c, tl, r, ns, hsh4⟩ := search_musicbrainz_individual_shape env st artist album title
    rw [hsmi] at hsh4
    dsimp only at hsh4
    subst hsh4
    dsimp only
    rcases hfs : fingerprintStep env
        { st with cache := c, trackLookups := tl, rateLimits := r,
                  nSearchRecordings := ns } fp with ⟨res5, st5⟩
    have hres5 : res5 = none := by
      have h := fingerprintStep_allfail_none env
        { st with cache := c, trackLookups := tl, rateLimits := r,
                  nSearchRecordings := ns } fp hc3 hff
      rw [hfs] at h
      exact h
    subst hres5
    obtain ⟨fc, fl, en, nf, na, hsh5⟩ := fingerprintStep_shape env
      { st with cache := c, trackLookups := tl, rateLimits := r,
                nSearchRecordings := ns } fp
    rw [hfs] at hsh5
    dsimp only at hsh5
    subst hsh5
    dsimp only
    split
    · rcases hls : lastfm_search env
          { st with cache := c, trackLookups := tl, rateLimits := r,
                    nSearchRecordings := ns, fingerprint_cache := fc,
                    fingerprintLookups := fl, fingerprint_enabled := en,
                    nFingerprintFile := nf, nAcoustidLookup := na }
          artist title album with ⟨res6, st6⟩
      have hres6 : res6 = none := by
        have h := lfs_allfail_none env
          { st with cache := c, trackLookups := tl, rateLimits := r,
                    nSearchRecordings := ns, fingerprint_cache := fc,
                    fingerprintLookups := fl, fingerprint_enabled := en,
                    nFingerprintFile := nf, nAcoustidLookup := na }
          artist title album hc4 hlt hla
        rw [hls] at h
        exact h
      subst hres6
      rfl
    · rfl

/-! ### The raw-handle layer against the statted layer -/

theorem afle_refines (env : Env) (st : ConvState) (f : FileId) :
    audio_fingerprint_lookupE env st (fhOfId f) =
      (Except.ok (audio_fingerprint_lookup env st f).1,
       (audio_fingerprint_lookup env st f).2) := by
  unfold audio_fingerprint_lookupE audio_fingerprint_lookup fhOfId
  split
  next h => rfl
  next h =>
    dsimp only
    have hid : ({ name := f.name, size := f.size } : FileId) = f := rfl
    rw [hid]
    rcases hc : aget st.fingerprint_cache
        ("fingerprint_" ++ f.name ++ "_" ++ toString f.size) with _ | v
    · dsimp only
    · rfl

theorem fingerprintStepE_refines (env : Env) (st : ConvState) (fp : Option FileId) :
    fingerprintStepE env st (fp.map fhOfId) =
      (Except.ok (fingerprintStep env st fp).1, (fingerprintStep env st fp).2) := by
  cases fp with
  | none => rfl
  | some f =>
    show fingerprintStepE env st (some (fhOfId f)) = _
    unfold fingerprintStepE fingerprintStep
    dsimp only
    split
    next h => exact afle_refines env st f
    next h => rfl

theorem gmlE_refines (env : Env) (st : ConvState) (a al t : String)
    (tn : Option Nat) (g : Bool) (fp : Option FileId) (em : Option Metadata) :
    getMetadataLookupE env st a al t tn g (fp.map fhOfId) em =
      (Except.ok (getMetadataLookup env st a al t tn g fp em).1,
       (getMetadataLookup env st a al t tn g fp em).2) := by
  unfold getMetadataLookupE getMetadataLookup
  cases g
  case false =>
    rw [if_neg (by decide), if_neg (by decide)]
    dsimp only
    simp only [Bool.false_and]
    rw [if_neg (by decide)]
    dsimp only
    rw [if_pos (by decide), if_pos (by decide)]
    rcases hsmi : search_musicbrainz_individual env st a al t with ⟨r4, st4⟩
    cases r4 with
    | some md => rfl
    | none =>
      dsimp only
      rw [fingerprintStepE_refines env st4 fp]
      rcases hfs : fingerprintStep env st4 fp with ⟨r5, st5⟩
      dsimp only
      cases r5 with
      | some fm => rfl
      | none =>
        dsimp only
        split
        next h =>
          rcases hls : lastfm_search env st5 a t al with ⟨r6, st6⟩
          cases r6 with
          | some lm => rfl
          | none => dsimp only
        next h =>
          rcases hfb : fallbackStep a al t tn em st5 with ⟨fb, st7⟩
          rfl
  case true =>
    rw [if_pos rfl, if_pos rfl]
    rw [fingerprintStepE_refines env st fp]
    rcases hfs : fingerprintStep env st fp with ⟨r2, st2⟩
    dsimp only
    cases r2 with
    | some fm => rfl
    | none =>
      dsimp only
      simp only [Bool.true_and]
      split
      next h =>
        rcases hs3 : search_track_by_position env st2 a al (tn.getD 0) with ⟨r3, st3⟩
        dsimp only
      next h =>
        rw [if_neg (by decide), if_neg (by decide)]

theorem get_metadataE_refines (env : Env) (st : ConvState) (a al t : String)
    (tn : Option Nat) (g : Bool) (fp : Option FileId) (em : Option Metadata) :
    get_metadataE env st a al t tn g (fp.map fhOfId) em =
      (Except.ok (get_metadata env st a al t tn g fp em).1,
       (get_metadata env st a al t tn g fp em).2) := by
  unfold get_metadataE get_metadata
  cases em with
  | none => exact gmlE_refines env st a al t tn g fp none
  | some e =>
    dsimp only
    split
    next h => rfl
    next h => exact gmlE_refines env st a al t tn g fp (some e)

theorem afle_error (env : Env) (st : ConvState) (f : FileHandle) (e : String)
    (h : (audio_fingerprint_lookupE env st f).1 = Except.error e) :
    f.statSize = Except.error e := by
  unfold audio_fingerprint_lookupE at h
  split at h
  · exact Except.noConfusion h
  · split at h
    next e2 heq =>
      dsimp only at h
      injection h with h2
      rw [heq, h2]
    next size heq =>
      dsimp only at h
      split at h
      · exact Except.noConfusion h
      · exact Except.noConfusion h

theorem fingerprintStepE_error (env : Env) (st : ConvState) (fp : Option FileHandle)
    (e : String) (h : (fingerprintStepE env st fp).1 = Except.error e) :
    ∃ f, fp = some f ∧ f.statSize = Except.error e := by
  unfold fingerprintStepE at h
  cases fp with
  | none =>
    dsimp only at h
    exact Except.noConfusion h
  | some f =>
    dsimp only at h
    split at h
    · exact ⟨f, rfl, afle_error env st f e h⟩
    · dsimp only at h
      exact Except.noConfusion h

theorem gmlE_error (env : Env) (st : ConvState) (a al t : String) (tn : Option Nat)
    (g : Bool) (fp : Option FileHandle) (em : Option Metadata) (e : String)
    (h : (getMetadataLookupE env st a al t tn g fp em).1 = Except.error e) :
    ∃ f, fp = some f ∧ f.statSize = Except.error e := by
  unfold getMetadataLookupE at h
  cases g
  case false =>
    rw [if_neg (by decide)] at h
    dsimp only at h
    simp only [Bool.false_and] at h
    rw [if_neg (by decide)] at h
    dsimp only at h
    rw [if_pos (by decide)] at h
    rcases hsmi : search_musicbrainz_individual env st a al t with ⟨r4, st4⟩
    rw [hsmi] at h
    cases r4 with
    | some md => exact Except.noConfusion h
    | none =>
      dsimp only at h
      rcases hfs : fingerprintStepE env st4 fp with ⟨er, st5⟩
      rw [hfs] at h
      cases er with
      | error e2 =>
        dsimp only at h
        injection h with h2
        subst h2
        exact fingerprintStepE_error env st4 fp e2 (by rw [hfs])
      | ok vo =>
        cases vo with
        | some fm =>
          dsimp only at h
          exact Except.noConfusion h
        | none =>
          dsimp only at h
          split at h
          · rcases hls : lastfm_search env st5 a t al with ⟨r6, st6⟩
            rw [hls] at h
            cases r6 with
            | some lm => exact Except.noConfusion h
            | none =>
              dsimp only at h
              exact Except.noConfusion h
          · rcases hfb : fallbackStep a al t tn em st5 with ⟨fb, st7⟩
            rw [hfb] at h
            dsimp only at h
            exact Except.noConfusion h
  case true =>
    rw [if_pos rfl] at h
    rcases hfs : fingerprintStepE env st fp with ⟨er, st2⟩
    rw [hfs] at h
    cases er with
    | error e2 =>
      dsimp only at h
      injection h with h2
      subst h2
      exact fingerprintStepE_error env st fp e2 (by rw [hfs])
    | ok vo =>
      cases vo with
      | some fm =>
        dsimp only at h
        exact Except.noConfusion h
      | none =>
        dsimp only at h
        simp only [Bool.true_and] at h
        rcases hs3 : (if (tnTruthy tn && a != "" && al != "") = true then
            search_track_by_position env st2 a al (tn.getD 0)
          else (none, st2)) with ⟨r3, st3⟩
        rw [hs3] at h
        cases r3 with
        | some am => exact Except.noConfusion h
        | none =>
          dsimp only at h
          rw [if_neg (by decide)] at h
          rcases hfb : fallbackStep a al t tn em st3 with ⟨fb, st4⟩
          rw [hfb] at h
          dsimp only at h
          exact Except.noConfusion h

theorem get_metadataE_error (env : Env) (st : ConvState) (a al t : String)
    (tn : Option Nat) (g : Bool) (fp : Option FileHandle) (em : Option Metadata)
    (e : String) (h : (get_metadataE env st a al t tn g fp em).1 = Except.error e) :
    ∃ f, fp = some f ∧ f.statSize = Except.error e := by
  unfold get_metadataE at h
  cases em with
  | none => exact gmlE_error env st a al t tn g fp none e h
  | some e0 =>
    dsimp only at h
    split at h
    · exact Except.noConfusion h
    · exact gmlE_error env st a al t tn g fp (some e0) e h

/-! ### Claim C1, amended -/

/-- C1 as amended: whenever any supplied file handle stats successfully (in
particular whenever no handle is given at all), the resolver returns a
record, and when additionally every external source fails, the caches are
empty and no existing tags are given, that record is the path-derived
fallback, whose title and artist fields are present and equal to the
inputs.  They are therefore non-empty exactly when the inputs are: a file
directly under the scan root parses with an empty artist and the fallback
copies it through, and a handle whose stat raises escapes the resolver
altogether (claim C3), so neither guarantee is unconditional. -/
theorem C1_theorem (env : Env) (st : ConvState) (artist album title : String)
    (tn : Option Nat) (isGen : Bool) (fpo : Option FileHandle)
    (hf : AllFail env) (hc : CachesEmpty st)
    (hstat : ∀ f, fpo = some f → ∃ sz, f.statSize = Except.ok sz) :
    ∃ md st1,
      get_metadataE env st artist album title tn isGen fpo none =
        (Except.ok md, st1) ∧
      mget md "title" = some title ∧ mget md "artist" = some artist := by
  obtain ⟨fp, rfl⟩ : ∃ fp : Option FileId, fpo = fp.map fhOfId := by
    cases fpo with
    | none => exact ⟨none, rfl⟩
    | some f =>
      cases f with
      | mk n s =>
        obtain ⟨sz, hsz⟩ := hstat ⟨n, s⟩ rfl
        dsimp only at hsz
        subst hsz
        exact ⟨some ⟨n, sz⟩, rfl⟩
  have hfb : (get_metadata env st artist album title tn isGen fp none).1 =
      fallbackMD artist album title tn := by
    unfold get_metadata
    dsimp only
    exact gml_allfail env st artist album title tn isGen fp hf hc
  refine ⟨(get_metadata env st artist album title tn isGen fp none).1,
          (get_metadata env st artist album title tn isGen fp none).2,
          get_metadataE_refines env st artist album title tn isGen fp none, ?_, ?_⟩
  · rw [hfb]
    simp [fallbackMD, mget, aget]
  · rw [hfb]
    simp [fallbackMD, mget, aget]

/-- C1 witness: the amended claim instantiated at an all-failing environment,
a fresh state and a handle whose stat succeeds. -/
theorem C1_witness :
    AllFail envFail ∧ CachesEmpty st0 ∧
    (∃ md st1,
      get_metadataE envFail st0 "Queen" "Opera" "Bohemian" (some 4) false
          (some { name := "x.wav", statSize := Except.ok 5 }) none =
        (Except.ok md, st1) ∧
      mget md "title" = some "Bohemian" ∧ mget md "artist" = some "Queen") :=
  ⟨⟨fun _ => rfl, fun _ => rfl, fun _ => rfl, fun _ _ => ⟨"network down", rfl⟩,
    fun _ _ => rfl, fun _ _ => rfl, fun _ => rfl⟩,
   ⟨rfl, rfl, rfl, rfl⟩,
   C1_theorem envFail st0 "Queen" "Opera" "Bohemian" (some 4) false
     (some { name := "x.wav", statSize := Except.ok 5 })
     ⟨fun _ => rfl, fun _ => rfl, fun _ => rfl, fun _ _ => ⟨"network down", rfl⟩,
      fun _ _ => rfl, fun _ _ => rfl, fun _ => rfl⟩
     ⟨rfl, rfl, rfl, rfl⟩
     (by
       intro f hfe
       injection hfe with h2
       exact ⟨5, by rw [← h2]⟩)⟩

/-! ### Claim C3 -/

/-- C3 counterexample: a handle whose stat raises makes the fingerprint
client, and with it the resolver, propagate the error to the caller — the
state is returned untouched and no negative result is cached, refuting the
claim that every lookup exception is caught at its client boundary and that
the resolver always returns a record. -/
theorem C3_counterexample :
    get_metadataE envFail st0 "Queen" "Opera" "Track 01" (some 1) true
        (some fhBad) none =
      (Except.error "No such file or directory", st0) := rfl

/-- C3 as amended: an exception raised inside a source lookup body is caught
at that client boundary, recorded as the negative marker under the query
key, and treated as no match, and with every source raising the resolver
returns the path-derived fallback; the one uncaught path is the stat that
builds the fingerprint cache key before that client try block: every error
the resolver propagates is exactly a stat error of the supplied handle, and
with all stats succeeding the resolver never fails. -/
theorem C3_theorem :
    (∀ (env : Env) (st : ConvState) (a b : String), a ≠ "" → b ≠ "" →
      aget st.album_cache (lowerS ("album_" ++ a ++ "|" ++ b)) = none →
      env.searchReleases (strictAlbumQuery a b) = .error () →
      (search_album_tracks env st a b).1 = none ∧
      aget (search_album_tracks env st a b).2.album_cache
        (lowerS ("album_" ++ a ++ "|" ++ b)) = some none) ∧
    (∀ (env : Env) (st : ConvState) (a b t : String), a ≠ "" → t ≠ "" →
      aget st.cache (lowerS ("track_" ++ a ++ "|" ++ b ++ "|" ++ t)) = none →
      (∀ q, env.searchRecordings q = .error ()) →
      (search_musicbrainz_individual env st a b t).1 = none ∧
      aget (search_musicbrainz_individual env st a b t).2.cache
        (lowerS ("track_" ++ a ++ "|" ++ b ++ "|" ++ t)) = some none) ∧
    (∀ (env : Env) (st : ConvState) (f : FileId) (msg : String),
      st.fingerprint_enabled = true → env.fpcalcOk = true →
      aget st.fingerprint_cache
        ("fingerprint_" ++ f.name ++ "_" ++ toString f.size) = none →
      env.fingerprintFile f.name f.size = .error msg →
      (audio_fingerprint_lookup env st f).1 = none ∧
      aget (audio_fingerprint_lookup env st f).2.fingerprint_cache
        ("fingerprint_" ++ f.name ++ "_" ++ toString f.size) = some none) ∧
    (∀ (env : Env) (st : ConvState) (a t al : String),
      st.lastfm_enabled = true → a ≠ "" → t ≠ "" →
      aget st.lastfm_cache (lowerS ("lastfm_" ++ a ++ "|" ++ t ++ "|" ++ al)) = none →
      (∀ x y, env.lfGetTrack x y = .error ()) →
      env.lfGetArtist a = .error () →
      (lastfm_search env st a t al).1 = none ∧
      aget (lastfm_search env st a t al).2.lastfm_cache
        (lowerS ("lastfm_" ++ a ++ "|" ++ t ++ "|" ++ al)) = some none) ∧
    (∀ (env : Env) (st : ConvState) (a b t : String) (tn : Option Nat)
      (g : Bool) (fpo : Option FileHandle) (em : Option Metadata) (e : String),
      (get_metadataE env st a b t tn g fpo em).1 = Except.error e →
      ∃ f, fpo = some f ∧ f.statSize = Except.error e) ∧
    (∀ (env : Env) (st : ConvState) (a b t : String) (tn : Option Nat)
      (g : Bool) (fp : Option FileId), AllFail env → CachesEmpty st →
      (get_metadataE env st a b t tn g (fp.map fhOfId) none).1 =
        Except.ok (fallbackMD a b t tn)) := by
  refine ⟨sat_fail, smi_fail, ?_, ?_, ?_, ?_⟩
  · intro env st f msg h1 h2 h3 h4
    exact afl_fail env st f msg h1 h2 h3 h4
  · intro env st a t al h1 h2 h3 h4 h5 h6
    exact lfs_fail env st a t al h1 h2 h3 h4 h5 h6
  · intro env st a b t tn g fpo em e h
    exact get_metadataE_error env st a b t tn g fpo em e h
  · intro env st a b t tn g fp hf hc
    rw [get_metadataE_refines env st a b t tn g fp none]
    dsimp only
    have hfb : (get_metadata env st a b t tn g fp none).1 = fallbackMD a b t tn := by
      unfold get_metadata
      dsimp only
      exact gml_allfail env st a b t tn g fp hf hc
    rw [hfb]

/-- C3 witness: every clause instantiated in the all-failing environment at
a fresh state. -/
theorem C3_witness :
    ((search_album_tracks envFail st0 "a" "b").1 = none ∧
     aget (search_album_tracks envFail st0 "a" "b").2.album_cache
       (lowerS ("album_" ++ "a" ++ "|" ++ "b")) = some none) ∧
    ((search_musicbrainz_individual envFail st0 "a" "b" "t").1 = none ∧
     aget (search_musicbrainz_individual envFail st0 "a" "b" "t").2.cache
       (lowerS ("track_" ++ "a" ++ "|" ++ "b" ++ "|" ++ "t")) = some none) ∧
    ((audio_fingerprint_lookup envFail st0 ⟨"x.wav", 5⟩).1 = none ∧
     aget (audio_fingerprint_lookup envFail st0 ⟨"x.wav", 5⟩).2.fingerprint_cache
       ("fingerprint_" ++ "x.wav" ++ "_" ++ toString 5) = some none) ∧
    ((lastfm_search envFail st0 "a" "t" "al").1 = none ∧
     aget (lastfm_search envFail st0 "a" "t" "al").2.lastfm_cache
       (lowerS ("lastfm_" ++ "a" ++ "|" ++ "t" ++ "|" ++ "al")) = some none) ∧
    (∃ f, some fhBad = some f ∧
      f.statSize = Except.error "No such file or directory") ∧
    (get_metadataE envFail st0 "a" "b" "t" (some 2) true
        ((some ⟨"x.wav", 5⟩ : Option FileId).map fhOfId) none).1 =
      Except.ok (fallbackMD "a" "b" "t" (some 2)) :=
  ⟨C3_theorem.1 envFail st0 "a" "b" (by decide) (by decide) rfl rfl,
   C3_theorem.2.1 envFail st0 "a" "b" "t" (by decide) (by decide) rfl (fun _ => rfl),
   C3_theorem.2.2.1 envFail st0 ⟨"x.wav", 5⟩ "network down" rfl rfl rfl rfl,
   C3_theorem.2.2.2.1 envFail st0 "a" "t" "al" rfl (by decide) (by decide) rfl
     (fun _ _ => rfl) rfl,
   C3_theorem.2.2.2.2.1 envFail st0 "q" "b" "Track 01" (some 1) true (some fhBad)
     none "No such file or directory" rfl,
   C3_theorem.2.2.2.2.2 envFail st0 "a" "b" "t" (some 2) true (some ⟨"x.wav", 5⟩)
     ⟨fun _ => rfl, fun _ => rfl, fun _ => rfl, fun _ _ => ⟨"network down", rfl⟩,
      fun _ _ => rfl, fun _ _ => rfl, fun _ => rfl⟩
     ⟨rfl, rfl, rfl, rfl⟩⟩

/-! ### Claim C2 -/

theorem fingerprintStep_tl (env : Env) (st : ConvState) (fp : Option FileId) :
    (fingerprintStep env st fp).2.trackLookups = st.trackLookups := by
  obtain ⟨fc, fl, en, nf, na, h⟩ := fingerprintStep_shape env st fp
  rw [h]

theorem lastfm_tl (env : Env) (st : ConvState) (a t al : String) :
    (lastfm_search env st a t al).2.trackLookups = st.trackLookups := by
  obtain ⟨lc, ll, nt, na, h⟩ := lastfm_search_shape env st a t al
  rw [h]

theorem smi_inc (env : Env) (st : ConvState) (a b t : String)
    (ha : a ≠ "") (ht : t ≠ "") (hc1 : st.cache = []) :
    (search_musicbrainz_individual env st a b t).2.trackLookups =
      st.trackLookups + 1 := by
  unfold search_musicbrainz_individual
  dsimp only
  rw [if_neg (by simp [ha, ht])]
  have hmiss : aget st.cache (lowerS ("track_" ++ a ++ "|" ++ b ++ "|" ++ t)) = none := by
    rw [hc1]
    rfl
  simp only [hmiss]
  obtain ⟨ns, r, hsh⟩ := trackStratLoop_shape env a b t (recQueries a b t)
    (rateLimit { st with trackLookups := st.trackLookups + 1 }) 0
  simp only [hsh]
  rfl

theorem gml_nongen_inc (env : Env) (st : ConvState) (a b t : String)
    (tn : Option Nat) (fp : Option FileId) (em : Option Metadata)
    (ha : a ≠ "") (ht : t ≠ "") (hc1 : st.cache = []) :
    (getMetadataLookup env st a b t tn false fp em).2.trackLookups =
      st.trackLookups + 1 := by
  unfold getMetadataLookup
  rw [if_neg (by decide)]
  dsimp only
  simp only [Bool.false_and]
  rw [if_neg (by decide)]
  dsimp only
  rw [if_pos (by decide)]
  rcases hsmi : search_musicbrainz_individual env st a b t with ⟨res4, st4⟩
  have htl : st4.trackLookups = st.trackLookups + 1 := by
    have h := smi_inc env st a b t ha ht hc1
    rw [hsmi] at h
    exact h
  cases res4
  case some md => exact htl
  case none =>
    dsimp only
    rcases hfs : fingerprintStep env st4 fp with ⟨res5, st5⟩
    have htl5 : st5.trackLookups = st4.trackLookups := by
      have h := fingerprintStep_tl env st4 fp
      rw [hfs] at h
      exact h
    cases res5
    case some fm => exact htl5.trans htl
    case none =>
      dsimp only
      split
      · rcases hls : lastfm_search env st5 a t b with ⟨res6, st6⟩
        have htl6 : st6.trackLookups = st5.trackLookups := by
          have h := lastfm_tl env st5 a t b
          rw [hls] at h
          exact h
        cases res6
        case some lm => exact htl6.trans (htl5.trans htl)
        case none =>
          dsimp only
          rw [fallbackStep_snd]
          exact htl6.trans (htl5.trans htl)
      · rw [fallbackStep_snd]
        exact htl5.trans htl

/-- C2: complete existing metadata is returned unchanged with the state, and
therefore the external world, untouched; a record with clean essential fields
but no MusicBrainz identifier is classified incomplete; and on the
non-generic path such a record still triggers exactly one individual-track
external lookup. -/
theorem C2_theorem :
    (∀ (env : Env) (st : ConvState) (a b t : String) (tn : Option Nat) (g : Bool)
      (fp : Option FileId) (em : Metadata), is_metadata_complete em = true →
      get_metadata env st a b t tn g fp (some em) = (em, st)) ∧
    (∀ em : Metadata,
      essentialOk em "title" = true → essentialOk em "artist" = true →
      essentialOk em "album" = true →
      is_generic_filename (mgetD em "title" "") = false →
      mgetD em "musicbrainz_recordingid" "" = "" →
      mgetD em "musicbrainz_trackid" "" = "" →
      is_metadata_complete em = false) ∧
    (∀ (env : Env) (st : ConvState) (a b t : String) (tn : Option Nat)
      (fp : Option FileId) (em : Metadata), CachesEmpty st → a ≠ "" → t ≠ "" →
      is_metadata_complete em = false →
      (get_metadata env st a b t tn false fp (some em)).2.trackLookups =
        st.trackLookups + 1) := by
  refine ⟨?_, ?_, ?_⟩
  · intro env st a b t tn g fp em hcomp
    have hne : em.isEmpty = false := by
      cases em
      · simp [is_metadata_complete, essentialOk, mget, aget] at hcomp
      · rfl
    unfold get_metadata
    simp only [hne, hcomp, Bool.not_false, Bool.and_self, if_true]
  · intro em h1 h2 h3 hgen hid1 hid2
    simp [is_metadata_complete, h1, h2, h3, hgen, hid1, hid2]
  · intro env st a b t tn fp em hc ha ht hinc
    unfold get_metadata
    dsimp only
    rw [if_neg (by simp [hinc])]
    exact gml_nongen_inc env st a b t tn fp (some em) ha ht hc.1

/-- C2 witness: a complete record short-circuits the resolver; a clean
record without identifiers is incomplete and still causes one external
track lookup. -/
theorem C2_witness :
    get_metadata envFail st0 "x" "y" "z" none false none
      (some [("title", "Song X"), ("artist", "A"), ("album", "B"),
             ("musicbrainz_recordingid", "mbid")]) =
      ([("title", "Song X"), ("artist", "A"), ("album", "B"),
        ("musicbrainz_recordingid", "mbid")], st0) ∧
    is_metadata_complete
      [("title", "Song X"), ("artist", "A"), ("album", "B")] = false ∧
    (get_metadata envFail st0 "Queen" "Opera" "Bohemian" (some 4) false none
      (some [("title", "Song X"), ("artist", "A"), ("album", "B")])).2.trackLookups =
      st0.trackLookups + 1 :=
  ⟨C2_theorem.1 envFail st0 "x" "y" "z" none false none _ (by decide),
   C2_theorem.2.1 _ (by decide) (by decide) (by decide) (by decide) (by decide)
     (by decide),
   C2_theorem.2.2 envFail st0 "Queen" "Opera" "Bohemian" (some 4) none _
     ⟨rfl, rfl, rfl, rfl⟩ (by decide) (by decide) (by decide)⟩

/-! ### Claim C5: caching makes repeated queries idempotent -/

theorem sat_idem (env : Env) (st : ConvState) (a b : String)
    (ha : a ≠ "") (hb : b ≠ "")
    (hmiss : aget st.album_cache (lowerS ("album_" ++ a ++ "|" ++ b)) = none) :
    aget (search_album_tracks env st a b).2.album_cache
        (lowerS ("album_" ++ a ++ "|" ++ b)) = some (search_album_tracks env st a b).1 ∧
    (search_album_tracks env st a b).2.albumLookups = st.albumLookups + 1 ∧
    search_album_tracks env (search_album_tracks env st a b).2 a b =
      search_album_tracks env st a b := by
  have hstep : aget (search_album_tracks env st a b).2.album_cache
      (lowerS ("album_" ++ a ++ "|" ++ b)) = some (search_album_tracks env st a b).1 ∧
      (search_album_tracks env st a b).2.albumLookups = st.albumLookups + 1 := by
    unfold search_album_tracks
    rw [if_neg (by simp [ha, hb])]
    dsimp only
    simp only [hmiss]
    rcases hcore : albumCore env { st with albumLookups := st.albumLookups + 1 } a b
      with ⟨cres, st1⟩
    obtain ⟨r, ns, ng, hsh⟩ :=
      albumCore_shape env { st with albumLookups := st.albumLookups + 1 } a b
    rw [hcore] at hsh
    dsimp only at hsh
    subst hsh
    cases cres
    case error e => exact ⟨aget_aset_self _ _ _, rfl⟩
    case ok v => exact ⟨aget_aset_self _ _ _, rfl⟩
  refine ⟨hstep.1, hstep.2, ?_⟩
  rcases h1 : search_album_tracks env st a b with ⟨res1, st1⟩
  have hcached : aget st1.album_cache (lowerS ("album_" ++ a ++ "|" ++ b)) = some res1 := by
    have h := hstep.1
    rw [h1] at h
    exact h
  conv_lhs => unfold search_album_tracks
  rw [if_neg (by simp [ha, hb])]
  dsimp only
  simp only [hcached]

theorem smi_idem (env : Env) (st : ConvState) (a b t : String)
    (ha : a ≠ "") (ht : t ≠ "")
    (hmiss : aget st.cache (lowerS ("track_" ++ a ++ "|" ++ b ++ "|" ++ t)) = none) :
    aget (search_musicbrainz_individual env st a b t).2.cache
        (lowerS ("track_" ++ a ++ "|" ++ b ++ "|" ++ t)) =
      some (search_musicbrainz_individual env st a b t).1 ∧
    (search_musicbrainz_individual env st a b t).2.trackLookups = st.trackLookups + 1 ∧
    search_musicbrainz_individual env (search_musicbrainz_individual env st a b t).2 a b t =
      search_musicbrainz_individual env st a b t := by
  have hstep : aget (search_musicbrainz_individual env st a b t).2.cache
      (lowerS ("track_" ++ a ++ "|" ++ b ++ "|" ++ t)) =
        some (search_musicbrainz_individual env st a b t).1 ∧
      (search_musicbrainz_individual env st a b t).2.trackLookups = st.trackLookups + 1 := by
    unfold search_musicbrainz_individual
    rw [if_neg (by simp [ha, ht])]
    dsimp only
    simp only [hmiss]
    obtain ⟨ns, r, hsh⟩ := trackStratLoop_shape env a b t (recQueries a b t)
      (rateLimit { st with trackLookups := st.trackLookups + 1 }) 0
    simp only [hsh]
    exact ⟨aget_aset_self _ _ _, rfl⟩
  refine ⟨hstep.1, hstep.2, ?_⟩
  rcases h1 : search_musicbrainz_individual env st a b t with ⟨res1, st1⟩
  have hcached : aget st1.cache (lowerS ("track_" ++ a ++ "|" ++ b ++ "|" ++ t)) =
      some res1 := by
    have h := hstep.1
    rw [h1] at h
    exact h
  conv_lhs => unfold search_musicbrainz_individual
  rw [if_neg (by simp [ha, ht])]
  dsimp only
  simp only [hcached]

theorem fingerprintCore_disabled_none (env : Env) (st : ConvState) (f : FileId)
    (hen : st.fingerprint_enabled = true) :
    (fingerprintCore env st f).2.fingerprint_enabled = false →
    (fingerprintCore env st f).1 = none := by
  unfold fingerprintCore
  repeat' split
  all_goals simp_all

theorem afl_idem (env : Env) (st : ConvState) (f : FileId)
    (hen : st.fingerprint_enabled = true)
    (hmiss : aget st.fingerprint_cache
      ("fingerprint_" ++ f.name ++ "_" ++ toString f.size) = none) :
    aget (audio_fingerprint_lookup env st f).2.fingerprint_cache
        ("fingerprint_" ++ f.name ++ "_" ++ toString f.size) =
      some (audio_fingerprint_lookup env st f).1 ∧
    (audio_fingerprint_lookup env st f).2.fingerprintLookups = st.fingerprintLookups + 1 ∧
    audio_fingerprint_lookup env (audio_fingerprint_lookup env st f).2 f =
      audio_fingerprint_lookup env st f := by
  have hstep : aget (audio_fingerprint_lookup env st f).2.fingerprint_cache
      ("fingerprint_" ++ f.name ++ "_" ++ toString f.size) =
        some (audio_fingerprint_lookup env st f).1 ∧
      (audio_fingerprint_lookup env st f).2.fingerprintLookups = st.fingerprintLookups + 1 ∧
      ((audio_fingerprint_lookup env st f).2.fingerprint_enabled = false →
        (audio_fingerprint_lookup env st f).1 = none) := by
    unfold audio_fingerprint_lookup
    rw [if_neg (by simp [hen])]
    dsimp only
    simp only [hmiss]
    obtain ⟨en, nf, na, hsh⟩ :=
      fingerprintCore_shape env { st with fingerprintLookups := st.fingerprintLookups + 1 } f
    have hdis := fingerprintCore_disabled_none env
      { st with fingerprintLookups := st.fingerprintLookups + 1 } f hen
    refine ⟨aget_aset_self _ _ _, ?_, ?_⟩
    · simp only [hsh]
    · intro hfalse
      exact hdis hfalse
  refine ⟨hstep.1, hstep.2.1, ?_⟩
  rcases h1 : audio_fingerprint_lookup env st f with ⟨res1, st1⟩
  have hcached : aget st1.fingerprint_cache
      ("fingerprint_" ++ f.name ++ "_" ++ toString f.size) = some res1 := by
    have h := hstep.1
    rw [h1] at h
    exact h
  have hdis : st1.fingerprint_enabled = false → res1 = none := by
    intro hfalse
    have h := hstep.2.2
    rw [h1] at h
    exact h hfalse
  cases hen1 : st1.fingerprint_enabled
  case false =>
    have hres : res1 = none := hdis hen1
    subst hres
    conv_lhs => unfold audio_fingerprint_lookup
    rw [hen1]
    rw [if_pos (by decide)]
  case true =>
    conv_lhs => unfold audio_fingerprint_lookup
    rw [hen1, if_neg (by decide)]
    dsimp only
    simp only [hcached]

theorem lfs_idem (env : Env) (st : ConvState) (a t al : String)
    (hen : st.lastfm_enabled = true) (ha : a ≠ "") (ht : t ≠ "")
    (hmiss : aget st.lastfm_cache
      (lowerS ("lastfm_" ++ a ++ "|" ++ t ++ "|" ++ al)) = none) :
    aget (lastfm_search env st a t al).2.lastfm_cache
        (lowerS ("lastfm_" ++ a ++ "|" ++ t ++ "|" ++ al)) =
      some (lastfm_search env st a t al).1 ∧
    (lastfm_search env st a t al).2.lastfmLookups = st.lastfmLookups + 1 ∧
    lastfm_search env (lastfm_search env st a t al).2 a t al =
      lastfm_search env st a t al := by
  have hstep : aget (lastfm_search env st a t al).2.lastfm_cache
      (lowerS ("lastfm_" ++ a ++ "|" ++ t ++ "|" ++ al)) =
        some (lastfm_search env st a t al).1 ∧
      (lastfm_search env st a t al).2.lastfmLookups = st.lastfmLookups + 1 ∧
      (lastfm_search env st a t al).2.lastfm_enabled = true := by
    unfold lastfm_search
    rw [if_neg (by simp [hen, ha, ht])]
    dsimp only
    simp only [hmiss]
    rcases hcore : lastfmCore env { st with lastfmLookups := st.lastfmLookups + 1 } a t al
      with ⟨cres, st1⟩
    obtain ⟨nt, na, hsh⟩ :=
      lastfmCore_shape env { st with lastfmLookups := st.lastfmLookups + 1 } a t al
    rw [hcore] at hsh
    dsimp only at hsh
    subst hsh
    exact ⟨aget_aset_self _ _ _, rfl, hen⟩
  refine ⟨hstep.1, hstep.2.1, ?_⟩
  rcases h1 : lastfm_search env st a t al with ⟨res1, st1⟩
  have hcached : aget st1.lastfm_cache
      (lowerS ("lastfm_" ++ a ++ "|" ++ t ++ "|" ++ al)) = some res1 := by
    have h := hstep.1
    rw [h1] at h
    exact h
  have hen1 : st1.lastfm_enabled = true := by
    have h := hstep.2.2
    rw [h1] at h
    exact h
  conv_lhs => unfold lastfm_search
  rw [if_neg (by simp [hen1, ha, ht])]
  dsimp only
  simp only [hcached]

/-- C5: for each source client, a query with its required fields present and
not yet cached performs exactly one external lookup, stores its outcome (a
record or the no-match marker) under the normalized key, and a second
identical query is answered from the cache: it returns the identical result,
negative outcomes included, with a completely unchanged state, hence no
network request. -/
theorem C5_theorem :
    (∀ (env : Env) (st : ConvState) (a b : String), a ≠ "" → b ≠ "" →
      aget st.album_cache (lowerS ("album_" ++ a ++ "|" ++ b)) = none →
      aget (search_album_tracks env st a b).2.album_cache
          (lowerS ("album_" ++ a ++ "|" ++ b)) = some (search_album_tracks env st a b).1 ∧
      (search_album_tracks env st a b).2.albumLookups = st.albumLookups + 1 ∧
      search_album_tracks env (search_album_tracks env st a b).2 a b =
        search_album_tracks env st a b) ∧
    (∀ (env : Env) (st : ConvState) (a b t : String), a ≠ "" → t ≠ "" →
      aget st.cache (lowerS ("track_" ++ a ++ "|" ++ b ++ "|" ++ t)) = none →
      aget (search_musicbrainz_individual env st a b t).2.cache
          (lowerS ("track_" ++ a ++ "|" ++ b ++ "|" ++ t)) =
        some (search_musicbrainz_individual env st a b t).1 ∧
      (search_musicbrainz_individual env st a b t).2.trackLookups = st.trackLookups + 1 ∧
      search_musicbrainz_individual env (search_musicbrainz_individual env st a b t).2 a b t =
        search_musicbrainz_individual env st a b t) ∧
    (∀ (env : Env) (st : ConvState) (f : FileId), st.fingerprint_enabled = true →
      aget st.fingerprint_cache
        ("fingerprint_" ++ f.name ++ "_" ++ toString f.size) = none →
      aget (audio_fingerprint_lookup env st f).2.fingerprint_cache
          ("fingerprint_" ++ f.name ++ "_" ++ toString f.size) =
        some (audio_fingerprint_lookup env st f).1 ∧
      (audio_fingerprint_lookup env st f).2.fingerprintLookups = st.fingerprintLookups + 1 ∧
      audio_fingerprint_lookup env (audio_fingerprint_lookup env st f).2 f =
        audio_fingerprint_lookup env st f) ∧
    (∀ (env : Env) (st : ConvState) (a t al : String), st.lastfm_enabled = true →
      a ≠ "" → t ≠ "" →
      aget st.lastfm_cache (lowerS ("lastfm_" ++ a ++ "|" ++ t ++ "|" ++ al)) = none →
      aget (lastfm_search env st a t al).2.lastfm_cache
          (lowerS ("lastfm_" ++ a ++ "|" ++ t ++ "|" ++ al)) =
        some (lastfm_search env st a t al).1 ∧
      (lastfm_search env st a t al).2.lastfmLookups = st.lastfmLookups + 1 ∧
      lastfm_search env (lastfm_search env st a t al).2 a t al =
        lastfm_search env st a t al) :=
  ⟨sat_idem, smi_idem, afl_idem, lfs_idem⟩

/-- C5 witness: the four clauses instantiated at a fresh state in the
all-failing environment: the negative outcome is cached and the repeated
query is answered identically from the cache. -/
theorem C5_witness :
    (aget (search_album_tracks envFail st0 "a" "b").2.album_cache
        (lowerS ("album_" ++ "a" ++ "|" ++ "b")) = some (search_album_tracks envFail st0 "a" "b").1 ∧
     (search_album_tracks envFail st0 "a" "b").2.albumLookups = st0.albumLookups + 1 ∧
     search_album_tracks envFail (search_album_tracks envFail st0 "a" "b").2 "a" "b" =
       search_album_tracks envFail st0 "a" "b") ∧
    (aget (search_musicbrainz_individual envFail st0 "a" "b" "t").2.cache
        (lowerS ("track_" ++ "a" ++ "|" ++ "b" ++ "|" ++ "t")) =
       some (search_musicbrainz_individual envFail st0 "a" "b" "t").1 ∧
     (search_musicbrainz_individual envFail st0 "a" "b" "t").2.trackLookups =
       st0.trackLookups + 1 ∧
     search_musicbrainz_individual envFail
         (search_musicbrainz_individual envFail st0 "a" "b" "t").2 "a" "b" "t" =
       search_musicbrainz_individual envFail st0 "a" "b" "t") ∧
    (aget (audio_fingerprint_lookup envFail st0 ⟨"x.wav", 5⟩).2.fingerprint_cache
        ("fingerprint_" ++ "x.wav" ++ "_" ++ toString 5) =
       some (audio_fingerprint_lookup envFail st0 ⟨"x.wav", 5⟩).1 ∧
     (audio_fingerprint_lookup envFail st0 ⟨"x.wav", 5⟩).2.fingerprintLookups =
       st0.fingerprintLookups + 1 ∧
     audio_fingerprint_lookup envFail
         (audio_fingerprint_lookup envFail st0 ⟨"x.wav", 5⟩).2 ⟨"x.wav", 5⟩ =
       audio_fingerprint_lookup envFail st0 ⟨"x.wav", 5⟩) ∧
    (aget (lastfm_search envFail st0 "a" "t" "al").2.lastfm_cache
        (lowerS ("lastfm_" ++ "a" ++ "|" ++ "t" ++ "|" ++ "al")) =
       some (lastfm_search envFail st0 "a" "t" "al").1 ∧
     (lastfm_search envFail st0 "a" "t" "al").2.lastfmLookups = st0.lastfmLookups + 1 ∧
     lastfm_search envFail (lastfm_search envFail st0 "a" "t" "al").2 "a" "t" "al" =
       lastfm_search envFail st0 "a" "t" "al") :=
  ⟨C5_theorem.1 envFail st0 "a" "b" (by decide) (by decide) rfl,
   C5_theorem.2.1 envFail st0 "a" "b" "t" (by decide) (by decide) rfl,
   C5_theorem.2.2.1 envFail st0 ⟨"x.wav", 5⟩ rfl rfl,
   C5_theorem.2.2.2 envFail st0 "a" "t" "al" rfl (by decide) (by decide) rfl⟩

/-! ### Claim C6 -/

theorem lfCorrection_some (env : Env) (st : ConvState) (a t al : String)
    (md : Metadata) (st1 : ConvState)
    (h : lfCorrection env st a t al = (some md, st1)) :
    mget md "lastfm_corrected" = some "true" := by
  unfold lfCorrection at h
  repeat' split at h
  all_goals simp only [Prod.mk.injEq, Option.some.injEq] at h
  all_goals obtain ⟨h1, h2⟩ := h
  all_goals first
    | exact Option.noConfusion h1
    | (subst h1
       simp [mget, aget])

theorem lfConfidence_mset_conf (qt qa : String) (m : Metadata) (v : String) :
    lfConfidence qt qa (mset m "lastfm_confidence" v) = lfConfidence qt qa m := by
  unfold lfConfidence mgetD
  rw [mget_mset_ne m "lastfm_confidence" "title" v (by decide),
    mget_mset_ne m "lastfm_confidence" "artist" v (by decide)]

theorem lfDirect_conf (env : Env) (st : ConvState) (a t al : String)
    (md0 : Metadata) (conf : ℚ) (st2 : ConvState)
    (h : lfDirect env st a t al = (some (md0, conf), st2)) :
    lfConfidence t a md0 = conf := by
  unfold lfDirect at h
  cases henv : env.lfGetTrack a t with
  | error e =>
    rw [henv] at h
    simp at h
  | ok tr =>
    rw [henv] at h
    dsimp only at h
    cases hname : tr.name with
    | error e =>
      rw [hname] at h
      simp at h
    | ok tt =>
      rw [hname] at h
      dsimp only at h
      cases hart : tr.artistName with
      | error e =>
        rw [hart] at h
        simp at h
      | ok ao =>
        rw [hart] at h
        dsimp only at h
        cases hurl : tr.url with
        | error e =>
          rw [hurl] at h
          simp at h
        | ok tu =>
          rw [hurl] at h
          dsimp only at h
          simp only [Prod.mk.injEq, Option.some.injEq] at h
          obtain ⟨⟨hmd, hconf⟩, hst⟩ := h
          subst hmd
          subst hconf
          rw [lfConfidence_mset_conf]
          rfl

theorem lastfmCore_some (env : Env) (st : ConvState) (a t al : String)
    (md : Metadata) (st1 : ConvState)
    (h : lastfmCore env st a t al = (some md, st1)) :
    mget md "lastfm_corrected" = some "true" ∨ (4 : ℚ)/5 < lfConfidence t a md := by
  unfold lastfmCore at h
  split at h
  next md0 conf st2 heq =>
    split at h
    next hguard =>
      simp only [Prod.mk.injEq, Option.some.injEq] at h
      obtain ⟨hmd, hst⟩ := h
      subst hmd
      right
      rw [lfDirect_conf env st a t al md0 conf st2 heq]
      exact hguard
    next hguard =>
      exact Or.inl (lfCorrection_some env st2 a t al md st1 h)
  next st2 heq =>
    exact Or.inl (lfCorrection_some env st2 a t al md st1 h)

/-- C6 as amended: a record returned by the text search client after a fresh
lookup either comes from the direct hit, in which case its confidence, the
mean of title and artist similarity to the query, exceeds 0.8 and is stored
in the record; or it comes from the did-you-mean artist-correction retry,
which marks it lastfm_corrected and returns it unconditionally, with no
confidence computed or checked. -/
theorem C6_theorem (env : Env) (st : ConvState) (a t al : String) (md : Metadata)
    (st1 : ConvState)
    (hmiss : aget st.lastfm_cache
      (lowerS ("lastfm_" ++ a ++ "|" ++ t ++ "|" ++ al)) = none)
    (h : lastfm_search env st a t al = (some md, st1)) :
    mget md "lastfm_corrected" = some "true" ∨ (4 : ℚ)/5 < lfConfidence t a md := by
  unfold lastfm_search at h
  split at h
  · simp at h
  · dsimp only at h
    split at h
    next v heq =>
      rw [hmiss] at heq
      exact Option.noConfusion heq
    next heq =>
      rcases hcore : lastfmCore env { st with lastfmLookups := st.lastfmLookups + 1 }
        a t al with ⟨cres, st2⟩
      rw [hcore] at h
      dsimp only at h
      simp only [Prod.mk.injEq] at h
      obtain ⟨h1, h2⟩ := h
      subst h1
      exact lastfmCore_some env _ a t al md st2 hcore

/-- C6 counterexample: with the direct lookup raising and the corrected
artist resolving to an unrelated track, the client returns a record whose
query confidence is far below 0.8 (and carries no confidence field at all),
refuting the claim that every returned result clears the 0.8 bar. -/
theorem C6_counterexample :
    (lastfm_search envCorr st0 "bbbb" "aaaa" "").1 =
      some [("title", "zzzz"), ("artist", "gggg"), ("album", ""),
            ("lastfm_corrected", "true")] ∧
    ¬((4 : ℚ)/5 < lfConfidence "aaaa" "bbbb"
        [("title", "zzzz"), ("artist", "gggg"), ("album", ""),
         ("lastfm_corrected", "true")]) := by
  constructor
  · decide
  · have e : lfConfidence "aaaa" "bbbb"
        [("title", "zzzz"), ("artist", "gggg"), ("album", ""),
         ("lastfm_corrected", "true")] =
        (seqRatio "aaaa".toList "zzzz".toList +
         seqRatio "bbbb".toList "gggg".toList) / 2 := rfl
    have h1 : seqRatio "aaaa".toList "zzzz".toList = 0 := by
      unfold seqRatio
      rw [if_neg (by decide),
        show matchingSize "aaaa".toList "zzzz".toList = 0 from by decide]
      simp
    have h2 : seqRatio "bbbb".toList "gggg".toList = 0 := by
      unfold seqRatio
      rw [if_neg (by decide),
        show matchingSize "bbbb".toList "gggg".toList = 0 from by decide]
      simp
    rw [e, h1, h2]
    norm_num

/-- C6 witness: a fresh lookup whose direct query raises and whose
artist-correction retry resolves satisfies the amended disjunction through
its lastfm_corrected branch. -/
theorem C6_witness :
    aget st0.lastfm_cache
      (lowerS ("lastfm_" ++ "bbbb" ++ "|" ++ "aaaa" ++ "|" ++ "")) = none ∧
    (mget [("title", "zzzz"), ("artist", "gggg"), ("album", ""),
          ("lastfm_corrected", "true")] "lastfm_corrected" = some "true" ∨
      (4 : ℚ)/5 < lfConfidence "aaaa" "bbbb"
        [("title", "zzzz"), ("artist", "gggg"), ("album", ""),
         ("lastfm_corrected", "true")]) :=
  ⟨rfl,
   C6_theorem envCorr st0 "bbbb" "aaaa" ""
     [("title", "zzzz"), ("artist", "gggg"), ("album", ""),
      ("lastfm_corrected", "true")]
     (lastfm_search envCorr st0 "bbbb" "aaaa" "").2 rfl
     (by
       have h1 : (lastfm_search envCorr st0 "bbbb" "aaaa" "").1 =
           some [("title", "zzzz"), ("artist", "gggg"), ("album", ""),
                 ("lastfm_corrected", "true")] := by decide
       calc lastfm_search envCorr st0 "bbbb" "aaaa" "" =
           ((lastfm_search envCorr st0 "bbbb" "aaaa" "").1,
            (lastfm_search envCorr st0 "bbbb" "aaaa" "").2) := rfl
         _ = _ := by rw [h1])⟩
